import Mathlib

/-
  Verification development for the deferred fsync coordinator
  (src/backend/storage/sync/sync.c) and the bgwriter statistics sender
  (src/backend/utils/activity/pgstat_global.c).

  The C code is embedded shallowly: the process-wide mutable state
  (pendingOps hash table, pendingUnlinks list, inflight/retry queues,
  cycle counters, SyncState) becomes an explicit state record, and each
  C function becomes a Lean function on that record.  The pendingOps
  hash table is modelled as an association list keyed by FileTag with
  pairwise-distinct tags (hash tables keep one entry per key); HASH_FIND
  and HASH_REMOVE act on the first matching entry.  Machine integers:
  CycleCtr is a uint16, modelled as Nat with arithmetic mod 65536.

  External collaborators are modelled as oracles in SyncEnv:
  the handler vtable predicates (sync_filetagmatches), the handler
  unlink operation (return value and errno), and the outcome of an
  asynchronous flush submission.  AbsorbSyncRequests drains an
  inter-process queue; the queue contents are part of the state as a
  list of batches, one batch consumed per absorb call.  Asynchronous
  completions are delivered by the streaming-write engine on the owner
  thread at drain points; the model delivers each submission completion
  at the submission itself, the tightest drain point.  Fatal ereport
  calls (ERROR and PANIC severity) perform a non-local exit in C and
  are modelled as Except.error results.
-/

/-! Constants. errno values and elog severity codes are not defined in
the sources under verification; the concrete numbers are arbitrary
distinct codes, only their identity matters. -/

def ENOENT : Nat := 2
def EACCES : Nat := 13

def WARNING : Nat := 19
def ERROR : Nat := 21
def PANIC : Nat := 23

/-- Intervals for calling AbsorbSyncRequests (sync.c lines 85 and 86). -/
def FSYNCS_PER_ABSORB : Nat := 10

def UNLINKS_PER_ABSORB : Nat := 10

/-- CycleCtr is uint16 in the source; successor with wraparound mod 2^16. -/
def ctrSucc (c : Nat) : Nat := (c + 1) % 65536

/-- FileTag: opaque handler-qualified file identity, compared bytewise.
The handler discriminant selects the vtable entry; the remaining
handler-specific fields are collapsed into one abstract ident field,
since the coordinator only ever compares tags for equality. -/
structure FileTag where
  handler : Nat
  ident : Nat
deriving DecidableEq, Repr

/-- PendingFsyncEntry (sync.c lines 62 to 67). -/
structure PendingFsyncEntry where
  tag : FileTag
  cycle_ctr : Nat
  canceled : Bool
deriving DecidableEq, Repr

/-- PendingUnlinkEntry (sync.c lines 69 to 73). -/
structure PendingUnlinkEntry where
  tag : FileTag
  cycle_ctr : Nat
deriving DecidableEq, Repr

/-- InflightSyncEntry: per-submission record.  The C struct carries the
tag, a back pointer to the owning PendingFsyncEntry, per-handler
scratch, a path buffer, the retry count and a start timestamp; the
back pointer is modelled by looking the tag up in pendingOps (the hash
table gives one stable entry per tag), and scratch, path and timestamp
are not needed by any claim. -/
structure InflightSyncEntry where
  tag : FileTag
  retry_count : Nat
deriving DecidableEq, Repr

/-- SyncRequestType (sync.h): the four request variants. -/
inductive SyncRequestType where
  | SYNC_REQUEST
  | SYNC_FORGET_REQUEST
  | SYNC_FILTER_REQUEST
  | SYNC_UNLINK_REQUEST
deriving DecidableEq, Repr

/-- One request travelling through the inter-process queue. -/
structure SyncRequest where
  rtag : FileTag
  rtype : SyncRequestType
deriving DecidableEq, Repr

/-- Outcome of one asynchronous flush submission, as eventually
reported to SyncRequestCompleted: success (with the measured elapsed
time) or failure with an errno. -/
inductive SyncOutcome where
  | ok (elapsed : Nat)
  | fail (errno : Nat)
deriving DecidableEq, Repr

def isOkOutcome : SyncOutcome → Bool
  | .ok _ => true
  | .fail _ => false

/-- The external collaborators (spec section 6): the handler vtable and
the asynchronous engine.  filetagmatches ftag cand models
syncsw[ftag.handler].sync_filetagmatches(ftag, cand); unlinkfiletag
returns the (return value, errno) pair of the handler unlink;
syncResult tag rc is the completion outcome of submitting tag with
retry count rc. -/
structure SyncEnv where
  filetagmatches : FileTag → FileTag → Bool
  unlinkfiletag : FileTag → Int × Nat
  syncResult : FileTag → Nat → SyncOutcome

/-- Configuration GUCs read by the coordinator. -/
structure SyncConfig where
  enableFsync : Bool
  data_sync_retry : Bool
deriving DecidableEq, Repr

/-- Modelled from the spec: FILE_POSSIBLY_DELETED (fd.h is not among
the sources).  Spec section 7: transient file-gone errnos are
not-found and access-denied-on-deleted. -/
def FILE_POSSIBLY_DELETED (err : Nat) : Bool :=
  err == ENOENT || err == EACCES

/-- Modelled from the spec: data_sync_elevel (fd.c is not among the
sources).  Spec sections 4.5 and 6: the severity is the requested one,
promoted to PANIC under strict mode (data_sync_retry off). -/
def data_sync_elevel (cfg : SyncConfig) (elevel : Nat) : Nat :=
  if cfg.data_sync_retry then elevel else PANIC

/-- Non-local exits of the coordinator: elog/ereport calls at ERROR or
PANIC severity, plus Assert failures and fuel exhaustion of the
modelled loops (the latter is unreachable in every run considered). -/
inductive SyncError where
  | panicNotImplemented
  | pendingOpsCorrupted
  | assertCycleCtrFailed
  | assertRetryCountFailed
  | dataSyncFailure (elevel : Nat) (tag : FileTag) (errno : Nat)
  | panicSyncQueueCorrupted
  | outOfFuel
deriving DecidableEq, Repr

/-- The process-wide coordinator state: the globals of sync.c
(pendingOps, pendingUnlinks, inflightSyncs, retrySyncs, the two cycle
counters, sync_state_global) together with the exported
CheckpointStats fields, the inter-process request queue (a list of
batches, one drained per AbsorbSyncRequests call) and observation
logs recording handler invocations (submissions, unlink calls,
warnings, debug-level retry messages). -/
structure SyncGState where
  pendingOps : List PendingFsyncEntry := []
  pendingUnlinks : List PendingUnlinkEntry := []
  inflightSyncs : List InflightSyncEntry := []
  retrySyncs : List InflightSyncEntry := []
  sync_cycle_ctr : Nat := 0
  checkpoint_cycle_ctr : Nat := 0
  sync_in_progress : Bool := false
  absorb_counter : Nat := FSYNCS_PER_ABSORB
  processed : Nat := 0
  longest : Nat := 0
  total_elapsed : Nat := 0
  ckpt_sync_rels : Nat := 0
  ckpt_longest_sync : Nat := 0
  ckpt_agg_sync_time : Nat := 0
  absorbQueue : List (List SyncRequest) := []
  submitted : List (FileTag × Nat) := []
  unlinkCalls : List FileTag := []
  warnings : List FileTag := []
  debugRetries : List FileTag := []
deriving DecidableEq, Repr

/-! Hash table primitives on the pendingOps association list. -/

/-- hash_search(pendingOps, tag, HASH_FIND): first entry keyed tag. -/
def opsFind : List PendingFsyncEntry → FileTag → Option PendingFsyncEntry
  | [], _ => none
  | e :: rest, tag => if e.tag = tag then some e else opsFind rest tag

/-- hash_search(pendingOps, tag, HASH_REMOVE): drop the entry keyed tag. -/
def opsRemove : List PendingFsyncEntry → FileTag → List PendingFsyncEntry
  | [], _ => []
  | e :: rest, tag => if e.tag = tag then rest else e :: opsRemove rest tag

/-- SYNC_FORGET_REQUEST body (sync.c lines 577 to 588): find the entry
and set its canceled flag; nothing happens when the tag is absent. -/
def opsCancel : List PendingFsyncEntry → FileTag → List PendingFsyncEntry
  | [], _ => []
  | e :: rest, tag =>
    if e.tag = tag then { e with canceled := true } :: rest
    else e :: opsCancel rest tag

/-- hash_search(pendingOps, tag, HASH_ENTER) followed by the
conditional initialization of sync.c lines 640 to 649: a new entry, or
one that was previously canceled, is (re)initialized with the current
sync_cycle_ctr and canceled false; an existing live entry is left
untouched (its cycle_ctr must stay the oldest request). -/
def enterFsync : List PendingFsyncEntry → FileTag → Nat → List PendingFsyncEntry
  | [], tag, ctr => [⟨tag, ctr, false⟩]
  | e :: rest, tag, ctr =>
    if e.tag = tag then
      (if e.canceled then (⟨tag, ctr, false⟩ : PendingFsyncEntry) else e) :: rest
    else e :: enterFsync rest tag ctr

/-- The guard of the SYNC_FILTER_REQUEST scans (sync.c lines 599, 600
and 609, 610): same handler and the handler matches predicate holds. -/
def tagMatches (env : SyncEnv) (ftag : FileTag) (t : FileTag) : Bool :=
  decide (t.handler = ftag.handler) && env.filetagmatches ftag t

/-- First scan of SYNC_FILTER_REQUEST (sync.c lines 596 to 602): set
canceled on every matching pendingOps entry, removing none. -/
def cancelMatching (env : SyncEnv) (ftag : FileTag) :
    List PendingFsyncEntry → List PendingFsyncEntry
  | [] => []
  | e :: rest =>
    (if tagMatches env ftag e.tag then { e with canceled := true } else e)
      :: cancelMatching env ftag rest

/-- Second scan of SYNC_FILTER_REQUEST (sync.c lines 604 to 615):
delete (and free) every matching pendingUnlinks entry. -/
def dropMatchingUnlinks (env : SyncEnv) (ftag : FileTag) :
    List PendingUnlinkEntry → List PendingUnlinkEntry
  | [] => []
  | e :: rest =>
    if tagMatches env ftag e.tag then dropMatchingUnlinks env ftag rest
    else e :: dropMatchingUnlinks env ftag rest

/-- RememberSyncRequest (sync.c lines 572 to 659): the request intake,
dispatching on the four request types. -/
def RememberSyncRequest (env : SyncEnv) (st : SyncGState) (ftag : FileTag)
    (ty : SyncRequestType) : SyncGState :=
  match ty with
  | .SYNC_FORGET_REQUEST =>
      { st with pendingOps := opsCancel st.pendingOps ftag }
  | .SYNC_FILTER_REQUEST =>
      { st with
        pendingOps := cancelMatching env ftag st.pendingOps,
        pendingUnlinks := dropMatchingUnlinks env ftag st.pendingUnlinks }
  | .SYNC_UNLINK_REQUEST =>
      { st with
        pendingUnlinks :=
          st.pendingUnlinks ++ [⟨ftag, st.checkpoint_cycle_ctr⟩] }
  | .SYNC_REQUEST =>
      { st with
        pendingOps := enterFsync st.pendingOps ftag st.sync_cycle_ctr }

/-- AbsorbSyncRequests: drain the inter-process queue, invoking
RememberSyncRequest for each item.  One queue batch is consumed per
call; with an empty queue the call is a no-op. -/
def AbsorbSyncRequests (env : SyncEnv) (st : SyncGState) : SyncGState :=
  match st.absorbQueue with
  | [] => st
  | batch :: rest =>
      batch.foldl (fun s r => RememberSyncRequest env s r.rtag r.rtype)
        { st with absorbQueue := rest }

/-- SyncPreCheckpoint (sync.c lines 182 to 190): advance the
checkpoint cycle counter; nothing else. -/
def SyncPreCheckpoint (st : SyncGState) : SyncGState :=
  { st with checkpoint_cycle_ctr := ctrSucc st.checkpoint_cycle_ctr }

/-- SyncRequestCompleted (sync.c lines 268 to 340): completion of one
asynchronous flush.  The entry leaves the inflight queue.  On success
the timing stats are updated and the owning pendingOps entry is
removed (elog ERROR when it is missing).  On failure, a first failure
with a possibly-deleted errno is logged at DEBUG1 and the entry is
pushed onto the retry queue with its retry count incremented; any
other failure is reported at data_sync_elevel(ERROR), a non-local
exit. -/
def SyncRequestCompleted (cfg : SyncConfig) (st : SyncGState)
    (e : InflightSyncEntry) (success : Bool) (err : Nat) (elapsed : Nat) :
    Except SyncError SyncGState :=
  let st0 := { st with inflightSyncs := st.inflightSyncs.erase e }
  if success then
    let st1 := { st0 with
      longest := if elapsed > st0.longest then elapsed else st0.longest,
      total_elapsed := st0.total_elapsed + elapsed,
      processed := st0.processed + 1 }
    match opsFind st1.pendingOps e.tag with
    | some _ =>
        Except.ok { st1 with pendingOps := opsRemove st1.pendingOps e.tag }
    | none => Except.error SyncError.pendingOpsCorrupted
  else
    if FILE_POSSIBLY_DELETED err = false ∨ 0 < e.retry_count then
      Except.error (SyncError.dataSyncFailure (data_sync_elevel cfg ERROR) e.tag err)
    else
      Except.ok { st0 with
        debugRetries := st0.debugRetries ++ [e.tag],
        retrySyncs :=
          st0.retrySyncs ++ [{ e with retry_count := e.retry_count + 1 }] }

/-- call_syncfiletag (sync.c lines 342 to 352): push the entry onto
the inflight queue, timestamp it, and hand it to the handler, which
starts the asynchronous flush and arranges for SyncRequestCompleted.
The submission is recorded in the observation log; the completion,
whose outcome the environment dictates, is delivered at the
submission drain point. -/
def call_syncfiletag (env : SyncEnv) (cfg : SyncConfig) (st : SyncGState)
    (e : InflightSyncEntry) : Except SyncError SyncGState :=
  let st1 := { st with
    inflightSyncs := st.inflightSyncs ++ [e],
    submitted := st.submitted ++ [(e.tag, e.retry_count)] }
  match env.syncResult e.tag e.retry_count with
  | .ok elapsed => SyncRequestCompleted cfg st1 e true 0 elapsed
  | .fail err => SyncRequestCompleted cfg st1 e false err 0

/-- The retry drain loop of RetrySyncRequests (sync.c lines 378 to
393): pop entries off the retry queue; a canceled owning entry is
removed from pendingOps and the inflight record discarded, otherwise
the entry is resubmitted (after the Assert on its retry count).  The
C loop runs until the queue empties; the fuel argument makes the
recursion structural and is chosen large enough that exhaustion is
unreachable. -/
def retryLoop (env : SyncEnv) (cfg : SyncConfig) :
    Nat → SyncGState → Except SyncError SyncGState
  | 0, _ => Except.error SyncError.outOfFuel
  | fuel + 1, st =>
    match st.retrySyncs with
    | [] => Except.ok st
    | e :: rest =>
      let st1 := { st with retrySyncs := rest }
      match opsFind st1.pendingOps e.tag with
      | some entry =>
          if entry.canceled then
            retryLoop env cfg fuel
              { st1 with pendingOps := opsRemove st1.pendingOps e.tag }
          else if e.retry_count ≤ 5 then
            match call_syncfiletag env cfg st1 e with
            | .error er => Except.error er
            | .ok st2 => retryLoop env cfg fuel st2
          else Except.error SyncError.assertRetryCountFailed
      | none => Except.error SyncError.pendingOpsCorrupted

/-- RetrySyncRequests (sync.c lines 365 to 394): nothing to do when
the retry queue is empty; otherwise absorb incoming requests once (so
that cancels that raced with the failed flushes are visible), reset
the absorb counter, and drain the retry queue. -/
def RetrySyncRequests (env : SyncEnv) (cfg : SyncConfig) (st : SyncGState) :
    Except SyncError SyncGState :=
  if st.retrySyncs = [] then Except.ok st
  else
    let stA := { AbsorbSyncRequests env st with
                   absorb_counter := FSYNCS_PER_ABSORB }
    retryLoop env cfg (2 * stA.retrySyncs.length + 1) stA

/-- The retry bank of ProcessSyncRequests (sync.c lines 542 to 545):
five passes of RetrySyncRequests. -/
def iterRetry (env : SyncEnv) (cfg : SyncConfig) :
    Nat → SyncGState → Except SyncError SyncGState
  | 0, st => Except.ok st
  | n + 1, st =>
    match RetrySyncRequests env cfg st with
    | .error er => Except.error er
    | .ok st1 => iterRetry env cfg n st1

/-- The tail of ProcessSyncRequests (sync.c lines 547 to 560): PANIC
when the inflight or the retry queue is not empty (both sites emit the
same message); otherwise free the streaming writer, export the pass
stats to CheckpointStats and clear sync_in_progress. -/
def finishPass (st : SyncGState) : Except SyncError SyncGState :=
  if st.inflightSyncs ≠ [] then Except.error SyncError.panicSyncQueueCorrupted
  else if st.retrySyncs ≠ [] then Except.error SyncError.panicSyncQueueCorrupted
  else Except.ok { st with
    ckpt_sync_rels := st.processed,
    ckpt_longest_sync := st.longest,
    ckpt_agg_sync_time := st.total_elapsed,
    sync_in_progress := false }

/-- The hash_seq_search scan of ProcessSyncRequests (sync.c lines 485
to 538), walking the snapshot of tags taken at loop start (entries
inserted by interleaved absorbs may or may not be visited by the C
scan; the model does not visit them, which the source comment marks
as acceptable).  Per visited tag: a tag whose entry has vanished is
not yielded by hash_seq_search; an entry stamped with the current
sync_cycle_ctr is new and is skipped; otherwise the Assert demands
its counter is the immediate predecessor.  Every FSYNCS_PER_ABSORB
eligible entries one absorb call is interleaved, after which the
entry (whose canceled flag the absorb may have set) is re-read; a
canceled entry, or any entry when fsync is disabled, is removed with
no submission; anything else is submitted via a fresh
InflightSyncEntry. -/
def processLoop (env : SyncEnv) (cfg : SyncConfig) :
    List FileTag → SyncGState → Except SyncError SyncGState
  | [], st => Except.ok st
  | tag :: rest, st =>
    match opsFind st.pendingOps tag with
    | none => processLoop env cfg rest st
    | some entry =>
      if entry.cycle_ctr = st.sync_cycle_ctr then
        processLoop env cfg rest st
      else if ctrSucc entry.cycle_ctr = st.sync_cycle_ctr then
        let st1 :=
          if st.absorb_counter ≤ 1 then
            { AbsorbSyncRequests env st with absorb_counter := FSYNCS_PER_ABSORB }
          else { st with absorb_counter := st.absorb_counter - 1 }
        let entry1 := (opsFind st1.pendingOps tag).getD entry
        if cfg.enableFsync = false ∨ entry1.canceled = true then
          if (opsFind st1.pendingOps tag).isSome then
            processLoop env cfg rest
              { st1 with pendingOps := opsRemove st1.pendingOps tag }
          else Except.error SyncError.pendingOpsCorrupted
        else
          match call_syncfiletag env cfg st1 ⟨tag, 0⟩ with
          | .error er => Except.error er
          | .ok st2 => processLoop env cfg rest st2
      else Except.error SyncError.assertCycleCtrFailed

/-- ProcessSyncRequests (sync.c lines 399 to 561).  Absorb once up
front; a pass that finds sync_in_progress already set hard-aborts
with PANIC (elog at sync.c line 455; the stale cycle_ctr
renormalization written below that elog is unreachable).  Otherwise
reset the per-pass stats, advance sync_cycle_ctr, raise
sync_in_progress, scan the table, drain the streaming writer (the
model delivers completions at submission, so the drain is already
done), run the retry bank and finish the pass. -/
def ProcessSyncRequests (env : SyncEnv) (cfg : SyncConfig) (st : SyncGState) :
    Except SyncError SyncGState :=
  let stA := AbsorbSyncRequests env st
  if stA.sync_in_progress then
    Except.error SyncError.panicNotImplemented
  else
    let stB := { stA with
      processed := 0, longest := 0, total_elapsed := 0,
      sync_cycle_ctr := ctrSucc stA.sync_cycle_ctr,
      sync_in_progress := true,
      absorb_counter := FSYNCS_PER_ABSORB }
    match processLoop env cfg (stB.pendingOps.map (·.tag)) stB with
    | .error er => Except.error er
    | .ok stC =>
      match iterRetry env cfg 5 stC with
      | .error er => Except.error er
      | .ok stD => finishPass stD

/-- Total number of requests waiting in the inter-process queue. -/
def queueSize (q : List (List SyncRequest)) : Nat :=
  (q.map List.length).sum

/-- The unlink walk of SyncPostCheckpoint (sync.c lines 200 to 252):
process the pendingUnlinks list from the head, stopping at the first
entry stamped with the current checkpoint_cycle_ctr; unlink every
earlier entry, swallowing ENOENT, logging any other unlink failure as
a warning, and removing the list entry in every case; every
UNLINKS_PER_ABSORB removals one absorb call is interleaved.  The
absorb counter is the local variable of the C function; fuel makes
the recursion structural and is chosen so that exhaustion is
unreachable. -/
def postCkptLoop (env : SyncEnv) :
    Nat → Nat → SyncGState → SyncGState
  | 0, _, st => st
  | fuel + 1, counter, st =>
    match st.pendingUnlinks with
    | [] => st
    | entry :: rest =>
      if entry.cycle_ctr = st.checkpoint_cycle_ctr then st
      else
        let r := env.unlinkfiletag entry.tag
        let st1 := { st with
          unlinkCalls := st.unlinkCalls ++ [entry.tag],
          warnings :=
            if r.1 < 0 ∧ r.2 ≠ ENOENT then st.warnings ++ [entry.tag]
            else st.warnings,
          pendingUnlinks := rest }
        if counter ≤ 1 then
          postCkptLoop env fuel UNLINKS_PER_ABSORB (AbsorbSyncRequests env st1)
        else
          postCkptLoop env fuel (counter - 1) st1

/-- SyncPostCheckpoint (sync.c lines 197 to 253). -/
def SyncPostCheckpoint (env : SyncEnv) (st : SyncGState) : SyncGState :=
  postCkptLoop env (st.pendingUnlinks.length + queueSize st.absorbQueue + 1)
    UNLINKS_PER_ABSORB st

/-! The bgwriter statistics sender (pgstat_global.c). -/

/-- Modelled from the spec: the PgStat_MsgBgWriter message struct
(pgstat.h is not among the sources).  A message header set just
before sending, and the pending bgwriter counters; memcmp against an
all-zeroes struct is equality with bgwriter_all_zeroes. -/
structure PgStat_MsgBgWriter where
  m_hdr : Nat
  m_buf_written_clean : Nat
  m_maxwritten_clean : Nat
  m_buf_alloc : Nat
deriving DecidableEq, Repr

/-- The static all_zeroes comparand of pgstat_send_bgwriter. -/
def bgwriter_all_zeroes : PgStat_MsgBgWriter := ⟨0, 0, 0, 0⟩

/-- The PGSTAT_MTYPE_BGWRITER discriminant; value arbitrary. -/
def PGSTAT_MTYPE_BGWRITER : Nat := 4

/-- pgstat_setheader: stamp the message type into the header. -/
def pgstat_setheader (m : PgStat_MsgBgWriter) (mtype : Nat) : PgStat_MsgBgWriter :=
  { m with m_hdr := mtype }

/-- pgstat_send_bgwriter (pgstat_global.c lines 120 to 146): given the
current PendingBgWriterStats, return the new PendingBgWriterStats and
the message sent, if any.  An all-zeroes pending struct sends nothing;
otherwise the header is stamped, the struct is sent as is, and the
pending stats are cleared with MemSet. -/
def pgstat_send_bgwriter (pending : PgStat_MsgBgWriter) :
    PgStat_MsgBgWriter × Option PgStat_MsgBgWriter :=
  if pending = bgwriter_all_zeroes then (pending, none)
  else
    (bgwriter_all_zeroes, some (pgstat_setheader pending PGSTAT_MTYPE_BGWRITER))

/-! Helper lemmas: fields untouched by the request intake and by
absorbs. -/

theorem remember_core_fields (env : SyncEnv) (st : SyncGState) (t : FileTag)
    (ty : SyncRequestType) :
    (RememberSyncRequest env st t ty).sync_in_progress = st.sync_in_progress ∧
    (RememberSyncRequest env st t ty).sync_cycle_ctr = st.sync_cycle_ctr ∧
    (RememberSyncRequest env st t ty).checkpoint_cycle_ctr = st.checkpoint_cycle_ctr ∧
    (RememberSyncRequest env st t ty).absorbQueue = st.absorbQueue ∧
    (RememberSyncRequest env st t ty).submitted = st.submitted ∧
    (RememberSyncRequest env st t ty).retrySyncs = st.retrySyncs ∧
    (RememberSyncRequest env st t ty).inflightSyncs = st.inflightSyncs ∧
    (RememberSyncRequest env st t ty).absorb_counter = st.absorb_counter ∧
    (RememberSyncRequest env st t ty).unlinkCalls = st.unlinkCalls ∧
    (RememberSyncRequest env st t ty).warnings = st.warnings := by
  cases ty <;> exact ⟨rfl, rfl, rfl, rfl, rfl, rfl, rfl, rfl, rfl, rfl⟩

theorem foldl_remember_core_fields (env : SyncEnv) (batch : List SyncRequest)
    (st : SyncGState) :
    ((batch.foldl (fun s r => RememberSyncRequest env s r.rtag r.rtype) st)).sync_in_progress = st.sync_in_progress ∧
    ((batch.foldl (fun s r => RememberSyncRequest env s r.rtag r.rtype) st)).sync_cycle_ctr = st.sync_cycle_ctr ∧
    ((batch.foldl (fun s r => RememberSyncRequest env s r.rtag r.rtype) st)).checkpoint_cycle_ctr = st.checkpoint_cycle_ctr ∧
    ((batch.foldl (fun s r => RememberSyncRequest env s r.rtag r.rtype) st)).absorbQueue = st.absorbQueue ∧
    ((batch.foldl (fun s r => RememberSyncRequest env s r.rtag r.rtype) st)).submitted = st.submitted ∧
    ((batch.foldl (fun s r => RememberSyncRequest env s r.rtag r.rtype) st)).retrySyncs = st.retrySyncs ∧
    ((batch.foldl (fun s r => RememberSyncRequest env s r.rtag r.rtype) st)).inflightSyncs = st.inflightSyncs ∧
    ((batch.foldl (fun s r => RememberSyncRequest env s r.rtag r.rtype) st)).absorb_counter = st.absorb_counter := by
  induction batch generalizing st with
  | nil => exact ⟨rfl, rfl, rfl, rfl, rfl, rfl, rfl, rfl⟩
  | cons r rest ih =>
    simp only [List.foldl_cons]
    obtain ⟨h1, h2, h3, h4, h5, h6, h7, h8, _, _⟩ :=
      remember_core_fields env st r.rtag r.rtype
    obtain ⟨g1, g2, g3, g4, g5, g6, g7, g8⟩ :=
      ih (RememberSyncRequest env st r.rtag r.rtype)
    exact ⟨g1.trans h1, g2.trans h2, g3.trans h3, g4.trans h4, g5.trans h5,
      g6.trans h6, g7.trans h7, g8.trans h8⟩

theorem absorb_core_fields (env : SyncEnv) (st : SyncGState) :
    (AbsorbSyncRequests env st).sync_in_progress = st.sync_in_progress ∧
    (AbsorbSyncRequests env st).sync_cycle_ctr = st.sync_cycle_ctr ∧
    (AbsorbSyncRequests env st).checkpoint_cycle_ctr = st.checkpoint_cycle_ctr ∧
    (AbsorbSyncRequests env st).submitted = st.submitted ∧
    (AbsorbSyncRequests env st).retrySyncs = st.retrySyncs ∧
    (AbsorbSyncRequests env st).inflightSyncs = st.inflightSyncs ∧
    (AbsorbSyncRequests env st).absorb_counter = st.absorb_counter := by
  unfold AbsorbSyncRequests
  cases hq : st.absorbQueue with
  | nil => exact ⟨rfl, rfl, rfl, rfl, rfl, rfl, rfl⟩
  | cons batch rest =>
    obtain ⟨h1, h2, h3, _, h5, h6, h7, h8⟩ :=
      foldl_remember_core_fields env batch { st with absorbQueue := rest }
    exact ⟨h1, h2, h3, h5, h6, h7, h8⟩

theorem absorb_of_empty_queue (env : SyncEnv) (st : SyncGState)
    (h : st.absorbQueue = []) : AbsorbSyncRequests env st = st := by
  unfold AbsorbSyncRequests
  rw [h]

/-! Lemmas on the association-list primitives. -/

theorem enterFsync_found_live (ops : List PendingFsyncEntry) (tag : FileTag)
    (ctr : Nat) (e : PendingFsyncEntry) (hf : opsFind ops tag = some e)
    (hc : e.canceled = false) : enterFsync ops tag ctr = ops := by
  induction ops with
  | nil => simp [opsFind] at hf
  | cons a rest ih =>
    by_cases h : a.tag = tag
    · simp only [opsFind, if_pos h, Option.some.injEq] at hf
      subst hf
      simp [enterFsync, h, hc]
    · simp only [opsFind, if_neg h] at hf
      simp [enterFsync, h, ih hf]

theorem enterFsync_found_canceled (ops : List PendingFsyncEntry) (tag : FileTag)
    (ctr : Nat) (e : PendingFsyncEntry) (hf : opsFind ops tag = some e)
    (hc : e.canceled = true) :
    opsFind (enterFsync ops tag ctr) tag = some ⟨tag, ctr, false⟩ := by
  induction ops with
  | nil => simp [opsFind] at hf
  | cons a rest ih =>
    by_cases h : a.tag = tag
    · simp only [opsFind, if_pos h, Option.some.injEq] at hf
      subst hf
      simp [enterFsync, h, hc, opsFind]
    · simp only [opsFind, if_neg h] at hf
      simp [enterFsync, h, opsFind, ih hf]

theorem enterFsync_not_found (ops : List PendingFsyncEntry) (tag : FileTag)
    (ctr : Nat) (hf : opsFind ops tag = none) :
    enterFsync ops tag ctr = ops ++ [⟨tag, ctr, false⟩] := by
  induction ops with
  | nil => simp [enterFsync]
  | cons a rest ih =>
    by_cases h : a.tag = tag
    · simp [opsFind, h] at hf
    · simp only [opsFind, if_neg h] at hf
      simp [enterFsync, h, ih hf]

theorem enterFsync_length_found (ops : List PendingFsyncEntry) (tag : FileTag)
    (ctr : Nat) (hf : (opsFind ops tag).isSome) :
    (enterFsync ops tag ctr).length = ops.length := by
  induction ops with
  | nil => simp [opsFind] at hf
  | cons a rest ih =>
    by_cases h : a.tag = tag
    · by_cases hc : a.canceled <;> simp [enterFsync, h]
    · simp only [opsFind, if_neg h] at hf
      simp [enterFsync, h, ih hf]

theorem enterFsync_after_cancel (ops : List PendingFsyncEntry) (tag : FileTag)
    (ctr : Nat) :
    opsFind (enterFsync (opsCancel ops tag) tag ctr) tag
      = some ⟨tag, ctr, false⟩ := by
  induction ops with
  | nil => simp [opsCancel, enterFsync, opsFind]
  | cons a rest ih =>
    by_cases h : a.tag = tag
    · simp [opsCancel, h, enterFsync, opsFind]
    · simp [opsCancel, h, enterFsync, opsFind, ih]

theorem opsCancel_length (ops : List PendingFsyncEntry) (tag : FileTag) :
    (opsCancel ops tag).length = ops.length := by
  induction ops with
  | nil => rfl
  | cons a rest ih =>
    by_cases h : a.tag = tag <;> simp [opsCancel, h, ih]

theorem opsCancel_not_found (ops : List PendingFsyncEntry) (tag : FileTag)
    (hf : opsFind ops tag = none) : opsCancel ops tag = ops := by
  induction ops with
  | nil => rfl
  | cons a rest ih =>
    by_cases h : a.tag = tag
    · simp [opsFind, h] at hf
    · simp only [opsFind, if_neg h] at hf
      simp [opsCancel, h, ih hf]

theorem opsCancel_found (ops : List PendingFsyncEntry) (tag : FileTag)
    (e : PendingFsyncEntry) (hf : opsFind ops tag = some e) :
    opsFind (opsCancel ops tag) tag = some { e with canceled := true } := by
  induction ops with
  | nil => simp [opsFind] at hf
  | cons a rest ih =>
    by_cases h : a.tag = tag
    · simp only [opsFind, if_pos h, Option.some.injEq] at hf
      subst hf
      simp [opsCancel, h, opsFind]
    · simp only [opsFind, if_neg h] at hf
      simp [opsCancel, h, opsFind, ih hf]

theorem cancelMatching_eq_map (env : SyncEnv) (ftag : FileTag)
    (ops : List PendingFsyncEntry) :
    cancelMatching env ftag ops
      = ops.map (fun e =>
          if tagMatches env ftag e.tag then { e with canceled := true } else e) := by
  induction ops with
  | nil => rfl
  | cons a rest ih => simp [cancelMatching, ih]

theorem cancelMatching_length (env : SyncEnv) (ftag : FileTag)
    (ops : List PendingFsyncEntry) :
    (cancelMatching env ftag ops).length = ops.length := by
  rw [cancelMatching_eq_map]; simp

theorem dropMatchingUnlinks_eq_filter (env : SyncEnv) (ftag : FileTag)
    (us : List PendingUnlinkEntry) :
    dropMatchingUnlinks env ftag us
      = us.filter (fun e => !(tagMatches env ftag e.tag)) := by
  induction us with
  | nil => rfl
  | cons a rest ih =>
    by_cases h : tagMatches env ftag a.tag = true
    · simp [dropMatchingUnlinks, h, List.filter, ih]
    · simp only [Bool.not_eq_true] at h
      simp [dropMatchingUnlinks, h, List.filter, ih]

/-! Concrete fixtures used by witnesses and counterexamples. -/

def wTagA : FileTag := ⟨0, 1⟩
def wTagB : FileTag := ⟨0, 2⟩
def wTagC : FileTag := ⟨0, 3⟩
def wTagD : FileTag := ⟨0, 4⟩

def wEnv : SyncEnv where
  filetagmatches := fun _ _ => true
  unlinkfiletag := fun t =>
    if t.ident = 2 then (-1, ENOENT) else if t.ident = 3 then (-1, 5) else (0, 0)
  syncResult := fun _ _ => .ok 0

def wCfg : SyncConfig := ⟨true, true⟩

def cexStC1 : SyncGState :=
  { pendingOps := [⟨wTagA, 3, false⟩], sync_cycle_ctr := 7,
    sync_in_progress := true }

/-- C1 counterexample: ProcessSyncRequests entered while
sync_in_progress is true, on a table holding one entry with a stale
cycle_ctr.  The claim says the surviving entries are renormalized and
the pass then proceeds normally; the code instead hard-aborts with
the PANIC of sync.c line 455, before the renormalization loop. -/
theorem processSyncRequests_inProgress_cex :
    ProcessSyncRequests wEnv wCfg cexStC1
      = Except.error SyncError.panicNotImplemented := rfl

/-- C1 (amended): if ProcessSyncRequests is entered while
sync_in_progress is true, the process hard-aborts with the PANIC of
sync.c line 455 before any cycle_ctr is touched; the stale-counter
renormalization loop below that elog is unreachable and no pass is
run. -/
theorem processSyncRequests_inProgress_panics (env : SyncEnv) (cfg : SyncConfig)
    (st : SyncGState) (h : st.sync_in_progress = true) :
    ProcessSyncRequests env cfg st = Except.error SyncError.panicNotImplemented := by
  unfold ProcessSyncRequests
  simp [(absorb_core_fields env st).1, h]

/-- Witness for C1: the amended theorem at a concrete state. -/
theorem processSyncRequests_inProgress_panics_witness :
    cexStC1.sync_in_progress = true ∧
    ProcessSyncRequests wEnv wCfg cexStC1
      = Except.error SyncError.panicNotImplemented :=
  ⟨rfl, processSyncRequests_inProgress_panics wEnv wCfg cexStC1 rfl⟩

/-- C2: RememberSyncRequest with type Fsync deduplicates.  When a live
(non-canceled) entry for the tag exists the request changes nothing
(in particular the earlier cycle_ctr is kept and the table keeps
exactly one entry, witnessed by the unchanged length); when the entry
is canceled, or absent, the entry is (re)initialized with the current
sync_cycle_ctr and canceled = false; and a ForgetOne followed by a
fresh Fsync for the same tag leaves an entry stamped with the current
sync_cycle_ctr and canceled = false. -/
theorem rememberSyncRequest_fsync_dedup (env : SyncEnv) (st : SyncGState)
    (tag : FileTag) :
    (∀ e, opsFind st.pendingOps tag = some e → e.canceled = false →
       RememberSyncRequest env st tag .SYNC_REQUEST = st) ∧
    (∀ e, opsFind st.pendingOps tag = some e →
       (RememberSyncRequest env st tag .SYNC_REQUEST).pendingOps.length
         = st.pendingOps.length) ∧
    (∀ e, opsFind st.pendingOps tag = some e → e.canceled = true →
       opsFind (RememberSyncRequest env st tag .SYNC_REQUEST).pendingOps tag
         = some ⟨tag, st.sync_cycle_ctr, false⟩) ∧
    (opsFind st.pendingOps tag = none →
       (RememberSyncRequest env st tag .SYNC_REQUEST).pendingOps
         = st.pendingOps ++ [⟨tag, st.sync_cycle_ctr, false⟩]) ∧
    opsFind (RememberSyncRequest env
        (RememberSyncRequest env st tag .SYNC_FORGET_REQUEST) tag
        .SYNC_REQUEST).pendingOps tag
      = some ⟨tag, st.sync_cycle_ctr, false⟩ := by
  refine ⟨?_, ?_, ?_, ?_, ?_⟩
  · intro e hf hc
    show { st with pendingOps := enterFsync st.pendingOps tag st.sync_cycle_ctr } = st
    rw [enterFsync_found_live st.pendingOps tag st.sync_cycle_ctr e hf hc]
  · intro e hf
    exact enterFsync_length_found st.pendingOps tag st.sync_cycle_ctr
      (by rw [hf]; rfl)
  · intro e hf hc
    exact enterFsync_found_canceled st.pendingOps tag st.sync_cycle_ctr e hf hc
  · intro hf
    show enterFsync st.pendingOps tag st.sync_cycle_ctr = _
    exact enterFsync_not_found st.pendingOps tag st.sync_cycle_ctr hf
  · show opsFind (enterFsync (opsCancel st.pendingOps tag) tag st.sync_cycle_ctr) tag = _
    exact enterFsync_after_cancel st.pendingOps tag st.sync_cycle_ctr

def stC2 : SyncGState :=
  { pendingOps := [⟨wTagA, 4, false⟩], sync_cycle_ctr := 9 }

/-- Witness for C2 at a concrete one-entry table. -/
theorem rememberSyncRequest_fsync_dedup_witness :
    opsFind stC2.pendingOps wTagA = some ⟨wTagA, 4, false⟩ ∧
    RememberSyncRequest wEnv stC2 wTagA .SYNC_REQUEST = stC2 ∧
    opsFind (RememberSyncRequest wEnv
        (RememberSyncRequest wEnv stC2 wTagA .SYNC_FORGET_REQUEST) wTagA
        .SYNC_REQUEST).pendingOps wTagA = some ⟨wTagA, 9, false⟩ :=
  ⟨rfl,
   (rememberSyncRequest_fsync_dedup wEnv stC2 wTagA).1 ⟨wTagA, 4, false⟩ rfl rfl,
   (rememberSyncRequest_fsync_dedup wEnv stC2 wTagA).2.2.2.2⟩

/-- C7: the cancel operations never delete pendingOps entries.
ForgetOne keeps the table length, leaves the unlink list alone, is a
no-op when the tag is absent, and otherwise only sets canceled on the
entry (cycle_ctr untouched).  ForgetMatching keeps the table length,
sets canceled exactly on the entries whose handler and tag match the
pattern (all entries stay in place, non-matching ones unchanged), and
deletes exactly the matching pending-unlink entries. -/
theorem forgetRequests_never_delete_ops (env : SyncEnv) (st : SyncGState)
    (tag : FileTag) :
    (RememberSyncRequest env st tag .SYNC_FORGET_REQUEST).pendingOps.length
       = st.pendingOps.length ∧
    (RememberSyncRequest env st tag .SYNC_FORGET_REQUEST).pendingUnlinks
       = st.pendingUnlinks ∧
    (opsFind st.pendingOps tag = none →
       RememberSyncRequest env st tag .SYNC_FORGET_REQUEST = st) ∧
    (∀ e, opsFind st.pendingOps tag = some e →
       opsFind (RememberSyncRequest env st tag .SYNC_FORGET_REQUEST).pendingOps
           tag = some { e with canceled := true }) ∧
    (RememberSyncRequest env st tag .SYNC_FILTER_REQUEST).pendingOps.length
       = st.pendingOps.length ∧
    (RememberSyncRequest env st tag .SYNC_FILTER_REQUEST).pendingOps
       = st.pendingOps.map (fun e =>
           if tagMatches env tag e.tag then { e with canceled := true } else e) ∧
    (RememberSyncRequest env st tag .SYNC_FILTER_REQUEST).pendingUnlinks
       = st.pendingUnlinks.filter (fun e => !(tagMatches env tag e.tag)) := by
  refine ⟨opsCancel_length st.pendingOps tag, rfl, ?_, ?_,
    cancelMatching_length env tag st.pendingOps,
    cancelMatching_eq_map env tag st.pendingOps,
    dropMatchingUnlinks_eq_filter env tag st.pendingUnlinks⟩
  · intro hf
    show { st with pendingOps := opsCancel st.pendingOps tag } = st
    rw [opsCancel_not_found st.pendingOps tag hf]
  · intro e hf
    exact opsCancel_found st.pendingOps tag e hf

def stC7 : SyncGState :=
  { pendingOps := [⟨wTagA, 4, false⟩, ⟨⟨1, 9⟩, 4, false⟩],
    pendingUnlinks := [⟨wTagB, 0⟩, ⟨⟨1, 9⟩, 0⟩] }

/-- Witness for C7: a ForgetOne on a present tag and a ForgetMatching
whose pattern matches handler 0 only. -/
theorem forgetRequests_never_delete_ops_witness :
    opsFind stC7.pendingOps wTagA = some ⟨wTagA, 4, false⟩ ∧
    opsFind (RememberSyncRequest wEnv stC7 wTagA .SYNC_FORGET_REQUEST).pendingOps
        wTagA = some ⟨wTagA, 4, true⟩ ∧
    (RememberSyncRequest wEnv stC7 wTagA .SYNC_FILTER_REQUEST).pendingOps.length
       = stC7.pendingOps.length :=
  ⟨rfl,
   (forgetRequests_never_delete_ops wEnv stC7 wTagA).2.2.2.1
      ⟨wTagA, 4, false⟩ rfl,
   (forgetRequests_never_delete_ops wEnv stC7 wTagA).2.2.2.2.1⟩

/-- C10: pgstat_send_bgwriter sends a message if and only if the
pending struct differs from all_zeroes; an all-zeroes pending struct
sends nothing and is left unchanged; otherwise exactly one message is
sent carrying the pending counters with the header stamped, and the
pending struct is cleared to zeroes.  With a zero header (the only
state reachable outside the function), sending nothing is equivalent
to all pending counters being zero. -/
theorem pgstat_send_bgwriter_iff (p : PgStat_MsgBgWriter) :
    ((pgstat_send_bgwriter p).2 ≠ none ↔ p ≠ bgwriter_all_zeroes) ∧
    (p = bgwriter_all_zeroes → pgstat_send_bgwriter p = (p, none)) ∧
    (p ≠ bgwriter_all_zeroes →
       pgstat_send_bgwriter p
         = (bgwriter_all_zeroes,
            some { p with m_hdr := PGSTAT_MTYPE_BGWRITER })) ∧
    (p.m_hdr = 0 →
       ((pgstat_send_bgwriter p).2 = none ↔
          p.m_buf_written_clean = 0 ∧ p.m_maxwritten_clean = 0 ∧
          p.m_buf_alloc = 0)) := by
  obtain ⟨ph, pb, pc, pd⟩ := p
  by_cases h : (⟨ph, pb, pc, pd⟩ : PgStat_MsgBgWriter) = bgwriter_all_zeroes
  · rw [h]
    refine ⟨by simp [pgstat_send_bgwriter], fun _ => by simp [pgstat_send_bgwriter],
      fun hne => absurd rfl hne, fun _ => ?_⟩
    simp [pgstat_send_bgwriter, bgwriter_all_zeroes]
  · refine ⟨?_, fun he => absurd he h, fun _ => ?_, fun hh => ?_⟩
    · simp [pgstat_send_bgwriter, h]
    · simp [pgstat_send_bgwriter, h, pgstat_setheader]
    · have hh2 : ph = 0 := hh
      subst hh2
      simp only [pgstat_send_bgwriter, if_neg h]
      simp only [bgwriter_all_zeroes, PgStat_MsgBgWriter.mk.injEq] at h
      constructor
      · intro hcontr; simp at hcontr
      · intro hc
        exact absurd (by simp [hc.1, hc.2.1, hc.2.2]) h

/-- Witness for C10: one nonzero counter triggers exactly one send
carrying that counter, followed by a reset. -/
theorem pgstat_send_bgwriter_iff_witness :
    (⟨0, 5, 0, 0⟩ : PgStat_MsgBgWriter) ≠ bgwriter_all_zeroes ∧
    pgstat_send_bgwriter ⟨0, 5, 0, 0⟩
      = (bgwriter_all_zeroes, some ⟨PGSTAT_MTYPE_BGWRITER, 5, 0, 0⟩) :=
  ⟨by decide,
   (pgstat_send_bgwriter_iff ⟨0, 5, 0, 0⟩).2.2.1 (by decide)⟩

/-- C4: the failure arm of SyncRequestCompleted.  The entry is pushed
for retry, after the DEBUG1 log and the retry_count increment, exactly
when the errno is a recognized possibly-deleted code and retry_count
is zero; every other failure is a fatal data-sync error at the
configured severity.  Consequently every entry ever placed on the
retry queue carries retry_count 1, the bound retry_count at most 5 is
invariant, and an entry at the cap escalates to fatal on its next
failure. -/
theorem syncRequestCompleted_failure_policy (cfg : SyncConfig) (st : SyncGState)
    (e : InflightSyncEntry) (err : Nat) (elapsed : Nat) :
    (FILE_POSSIBLY_DELETED err = true ∧ e.retry_count = 0 →
       SyncRequestCompleted cfg st e false err elapsed
         = Except.ok { st with
             inflightSyncs := st.inflightSyncs.erase e,
             debugRetries := st.debugRetries ++ [e.tag],
             retrySyncs := st.retrySyncs
               ++ [{ e with retry_count := e.retry_count + 1 }] }) ∧
    (FILE_POSSIBLY_DELETED err = false ∨ 0 < e.retry_count →
       SyncRequestCompleted cfg st e false err elapsed
         = Except.error
             (SyncError.dataSyncFailure (data_sync_elevel cfg ERROR) e.tag err)) ∧
    (∀ success st',
       SyncRequestCompleted cfg st e success err elapsed = Except.ok st' →
       ∀ f ∈ st'.retrySyncs,
         f ∈ st.retrySyncs ∨
           (f = { e with retry_count := e.retry_count + 1 } ∧ e.retry_count = 0)) ∧
    ((∀ f ∈ st.retrySyncs, f.retry_count ≤ 5) →
       ∀ success st',
         SyncRequestCompleted cfg st e success err elapsed = Except.ok st' →
         ∀ f ∈ st'.retrySyncs, f.retry_count ≤ 5) ∧
    (e.retry_count = 5 →
       SyncRequestCompleted cfg st e false err elapsed
         = Except.error
             (SyncError.dataSyncFailure (data_sync_elevel cfg ERROR) e.tag err)) := by
  have hretry : ∀ success st',
      SyncRequestCompleted cfg st e success err elapsed = Except.ok st' →
      ∀ f ∈ st'.retrySyncs,
        f ∈ st.retrySyncs ∨
          (f = { e with retry_count := e.retry_count + 1 } ∧ e.retry_count = 0) := by
    intro success st' h f hf
    cases success with
    | true =>
      simp only [SyncRequestCompleted, if_true] at h
      cases hF : opsFind st.pendingOps e.tag with
      | some x =>
        rw [hF] at h
        cases h
        exact Or.inl hf
      | none =>
        rw [hF] at h
        cases h
    | false =>
      simp only [SyncRequestCompleted] at h
      by_cases hc : FILE_POSSIBLY_DELETED err = false ∨ 0 < e.retry_count
      · rw [if_pos hc] at h
        cases h
      · rw [if_neg hc] at h
        cases h
        push_neg at hc
        have hrc : e.retry_count = 0 := by omega
        simp only [List.mem_append, List.mem_singleton] at hf
        exact hf.imp id (fun hx => ⟨hx, hrc⟩)
  refine ⟨?_, ?_, hretry, ?_, ?_⟩
  · rintro ⟨h1, h2⟩
    have hcond : ¬(FILE_POSSIBLY_DELETED err = false ∨ 0 < e.retry_count) := by
      simp [h1, h2]
    simp only [SyncRequestCompleted]
    rw [if_neg (by decide : ¬(false = true)), if_neg hcond]
  · intro h
    simp only [SyncRequestCompleted]
    rw [if_neg (by decide : ¬(false = true)), if_pos h]
  · intro hbound success st' h f hf
    rcases hretry success st' h f hf with hl | ⟨hr, hrc⟩
    · exact hbound f hl
    · rw [hr]; simp [hrc]
  · intro h5
    have hcond : FILE_POSSIBLY_DELETED err = false ∨ 0 < e.retry_count := by
      right; omega
    simp only [SyncRequestCompleted]
    rw [if_neg (by decide : ¬(false = true)), if_pos hcond]

def stC4 : SyncGState := { inflightSyncs := [⟨wTagA, 0⟩] }

/-- Witness for C4: a first ENOENT failure is enqueued for retry with
retry_count 1. -/
theorem syncRequestCompleted_failure_policy_witness :
    (FILE_POSSIBLY_DELETED ENOENT = true ∧
       (⟨wTagA, 0⟩ : InflightSyncEntry).retry_count = 0) ∧
    SyncRequestCompleted wCfg stC4 ⟨wTagA, 0⟩ false ENOENT 0
      = Except.ok { stC4 with
          inflightSyncs := stC4.inflightSyncs.erase ⟨wTagA, 0⟩,
          debugRetries := stC4.debugRetries ++ [wTagA],
          retrySyncs := stC4.retrySyncs ++ [⟨wTagA, 1⟩] } :=
  ⟨⟨rfl, rfl⟩,
   (syncRequestCompleted_failure_policy wCfg stC4 ⟨wTagA, 0⟩ ENOENT 0).1 ⟨rfl, rfl⟩⟩

theorem finishPass_ok_inv (st st' : SyncGState)
    (h : finishPass st = Except.ok st') :
    st.inflightSyncs = [] ∧ st.retrySyncs = [] ∧
    st' = { st with
            ckpt_sync_rels := st.processed,
            ckpt_longest_sync := st.longest,
            ckpt_agg_sync_time := st.total_elapsed,
            sync_in_progress := false } := by
  unfold finishPass at h
  by_cases h1 : st.inflightSyncs ≠ []
  · rw [if_pos h1] at h; cases h
  · rw [if_neg h1] at h
    by_cases h2 : st.retrySyncs ≠ []
    · rw [if_pos h2] at h; cases h
    · rw [if_neg h2] at h
      cases h
      push_neg at h1 h2
      exact ⟨h1, h2, rfl⟩

/-- C9: a pass of ProcessSyncRequests that returns normally ends with
both the inflight and the retry queue empty, the stats exported to
CheckpointStats and sync_in_progress cleared; the final checks PANIC
on a non-empty inflight or retry queue, and the export together with
the clearing of sync_in_progress happens only on the branch where
both emptiness checks passed. -/
theorem processSyncRequests_end_invariants (env : SyncEnv) (cfg : SyncConfig)
    (st : SyncGState) :
    (∀ st', ProcessSyncRequests env cfg st = Except.ok st' →
       st'.inflightSyncs = [] ∧ st'.retrySyncs = [] ∧
       st'.sync_in_progress = false ∧
       st'.ckpt_sync_rels = st'.processed ∧
       st'.ckpt_longest_sync = st'.longest ∧
       st'.ckpt_agg_sync_time = st'.total_elapsed) ∧
    (st.inflightSyncs ≠ [] →
       finishPass st = Except.error SyncError.panicSyncQueueCorrupted) ∧
    (st.inflightSyncs = [] → st.retrySyncs ≠ [] →
       finishPass st = Except.error SyncError.panicSyncQueueCorrupted) ∧
    (∀ st', finishPass st = Except.ok st' →
       st.inflightSyncs = [] ∧ st.retrySyncs = [] ∧
       st' = { st with
               ckpt_sync_rels := st.processed,
               ckpt_longest_sync := st.longest,
               ckpt_agg_sync_time := st.total_elapsed,
               sync_in_progress := false }) := by
  refine ⟨?_, ?_, ?_, fun st' h => finishPass_ok_inv st st' h⟩
  · intro st' h
    simp only [ProcessSyncRequests] at h
    by_cases hp : (AbsorbSyncRequests env st).sync_in_progress = true
    · rw [if_pos hp] at h; cases h
    · rw [if_neg hp] at h
      split at h
      · cases h
      · split at h
        · cases h
        · obtain ⟨h1, h2, h3⟩ := finishPass_ok_inv _ _ h
          subst h3
          exact ⟨h1, h2, rfl, rfl, rfl, rfl⟩
  · intro h1
    unfold finishPass
    rw [if_pos h1]
  · intro h1 h2
    unfold finishPass
    rw [if_neg (by simp [h1]), if_pos h2]

def stC9 : SyncGState :=
  { pendingOps := [⟨wTagA, 4, false⟩], sync_cycle_ctr := 4 }

/-- Witness for C9: a concrete successful pass ends with empty queues,
exported stats and the flag cleared. -/
theorem processSyncRequests_end_invariants_witness :
    ∃ st', ProcessSyncRequests wEnv wCfg stC9 = Except.ok st' ∧
      st'.inflightSyncs = [] ∧ st'.retrySyncs = [] ∧
      st'.sync_in_progress = false ∧
      st'.ckpt_sync_rels = st'.processed :=
  ⟨_, rfl,
   ((processSyncRequests_end_invariants wEnv wCfg stC9).1 _ rfl).1,
   ((processSyncRequests_end_invariants wEnv wCfg stC9).1 _ rfl).2.1,
   ((processSyncRequests_end_invariants wEnv wCfg stC9).1 _ rfl).2.2.1,
   ((processSyncRequests_end_invariants wEnv wCfg stC9).1 _ rfl).2.2.2.1⟩

/-- The head test of the SyncPostCheckpoint walk: true while the entry
predates the current checkpoint cycle. -/
def oldEntry (c : Nat) (e : PendingUnlinkEntry) : Bool :=
  !decide (e.cycle_ctr = c)

/-- The warning condition of the SyncPostCheckpoint walk: the handler
unlink failed with an errno other than ENOENT. -/
def unlinkErrWarns (env : SyncEnv) (e : PendingUnlinkEntry) : Bool :=
  decide ((env.unlinkfiletag e.tag).1 < 0) &&
    !decide ((env.unlinkfiletag e.tag).2 = ENOENT)

theorem unlinkErrWarns_true_iff (env : SyncEnv) (e : PendingUnlinkEntry) :
    unlinkErrWarns env e = true ↔
      ((env.unlinkfiletag e.tag).1 < 0 ∧ (env.unlinkfiletag e.tag).2 ≠ ENOENT) := by
  simp [unlinkErrWarns]

theorem ctrSucc_ne (c : Nat) : ctrSucc c ≠ c := by
  unfold ctrSucc
  omega

theorem postCkptLoop_absorb_empty (env : SyncEnv) (f cnt : Nat)
    (s : SyncGState) (h : s.absorbQueue = []) :
    postCkptLoop env f cnt (AbsorbSyncRequests env s)
      = postCkptLoop env f cnt s := by
  rw [absorb_of_empty_queue env s h]

/-- Characterization of the post-checkpoint walk when no external
requests arrive (quiescent inter-process queue): the walk unlinks
exactly the maximal old prefix, warns exactly on the non-ENOENT
failures among it, leaves the rest of the list, and touches nothing
else. -/
theorem postCkptLoop_quiescent (env : SyncEnv) (c : Nat)
    (us : List PendingUnlinkEntry) :
    ∀ (fuel counter : Nat) (st : SyncGState),
    us.length ≤ fuel → st.absorbQueue = [] → st.pendingUnlinks = us →
    st.checkpoint_cycle_ctr = c →
    (postCkptLoop env fuel counter st).pendingUnlinks
      = us.dropWhile (oldEntry c) ∧
    (postCkptLoop env fuel counter st).unlinkCalls
      = st.unlinkCalls ++ (us.takeWhile (oldEntry c)).map (·.tag) ∧
    (postCkptLoop env fuel counter st).warnings
      = st.warnings
        ++ ((us.takeWhile (oldEntry c)).filter (unlinkErrWarns env)).map (·.tag) ∧
    (postCkptLoop env fuel counter st).pendingOps = st.pendingOps ∧
    (postCkptLoop env fuel counter st).checkpoint_cycle_ctr = c ∧
    (postCkptLoop env fuel counter st).absorbQueue = [] := by
  induction us with
  | nil =>
    intro fuel counter st hfuel hq hus hc
    have hret : postCkptLoop env fuel counter st = st := by
      cases fuel with
      | zero => rfl
      | succ f => simp only [postCkptLoop, hus]
    rw [hret]
    simp [hus, hc, hq]
  | cons u rest ih =>
    intro fuel counter st hfuel hq hus hc
    cases fuel with
    | zero => simp at hfuel
    | succ f =>
      by_cases hstop : u.cycle_ctr = c
      · have hret : postCkptLoop env (f + 1) counter st = st := by
          simp only [postCkptLoop, hus, hc]
          rw [if_pos hstop]
        have hold1 : oldEntry c u = false := by simp [oldEntry, hstop]
        rw [hret]
        simp [hus, hc, hq, List.takeWhile, List.dropWhile, hold1]
      · have hold1 : oldEntry c u = true := by simp [oldEntry, hstop]
        have hfuel1 : rest.length ≤ f := by
          simp only [List.length_cons] at hfuel; omega
        have key := fun cnt => ih f cnt
          { st with
            unlinkCalls := st.unlinkCalls ++ [u.tag],
            warnings :=
              if (env.unlinkfiletag u.tag).1 < 0 ∧
                 (env.unlinkfiletag u.tag).2 ≠ ENOENT
              then st.warnings ++ [u.tag] else st.warnings,
            pendingUnlinks := rest }
          hfuel1 hq rfl hc
        by_cases hcnt : counter ≤ 1
        · obtain ⟨i1, i2, i3, i4, i5, i6⟩ := key UNLINKS_PER_ABSORB
          have hred : postCkptLoop env (f + 1) counter st
              = postCkptLoop env f UNLINKS_PER_ABSORB
                  { st with
                    unlinkCalls := st.unlinkCalls ++ [u.tag],
                    warnings :=
                      if (env.unlinkfiletag u.tag).1 < 0 ∧
                         (env.unlinkfiletag u.tag).2 ≠ ENOENT
                      then st.warnings ++ [u.tag] else st.warnings,
                    pendingUnlinks := rest } := by
            simp only [postCkptLoop, hus]
            rw [if_neg (fun hx => hstop (hx.trans hc)), if_pos hcnt]
            exact postCkptLoop_absorb_empty env f UNLINKS_PER_ABSORB _ hq
          rw [hred]
          refine ⟨?_, ?_, ?_, i4, i5, i6⟩
          · rw [i1]; simp [List.dropWhile, hold1]
          · rw [i2]; simp [List.takeWhile, hold1, List.append_assoc]
          · rw [i3]
            by_cases hw : (env.unlinkfiletag u.tag).1 < 0 ∧
                (env.unlinkfiletag u.tag).2 ≠ ENOENT
            · have : unlinkErrWarns env u = true := (unlinkErrWarns_true_iff env u).mpr hw
              simp [List.takeWhile, hold1, List.filter, hw, this, List.append_assoc]
            · have : unlinkErrWarns env u = false := by
                rw [← Bool.not_eq_true]
                exact fun hx => hw ((unlinkErrWarns_true_iff env u).mp hx)
              simp [List.takeWhile, hold1, List.filter, hw, this]
        · obtain ⟨i1, i2, i3, i4, i5, i6⟩ := key (counter - 1)
          have hred : postCkptLoop env (f + 1) counter st
              = postCkptLoop env f (counter - 1)
                  { st with
                    unlinkCalls := st.unlinkCalls ++ [u.tag],
                    warnings :=
                      if (env.unlinkfiletag u.tag).1 < 0 ∧
                         (env.unlinkfiletag u.tag).2 ≠ ENOENT
                      then st.warnings ++ [u.tag] else st.warnings,
                    pendingUnlinks := rest } := by
            simp only [postCkptLoop, hus]
            rw [if_neg (fun hx => hstop (hx.trans hc)), if_neg hcnt]
          rw [hred]
          refine ⟨?_, ?_, ?_, i4, i5, i6⟩
          · rw [i1]; simp [List.dropWhile, hold1]
          · rw [i2]; simp [List.takeWhile, hold1, List.append_assoc]
          · rw [i3]
            by_cases hw : (env.unlinkfiletag u.tag).1 < 0 ∧
                (env.unlinkfiletag u.tag).2 ≠ ENOENT
            · have : unlinkErrWarns env u = true := (unlinkErrWarns_true_iff env u).mpr hw
              simp [List.takeWhile, hold1, List.filter, hw, this, List.append_assoc]
            · have : unlinkErrWarns env u = false := by
                rw [← Bool.not_eq_true]
                exact fun hx => hw ((unlinkErrWarns_true_iff env u).mp hx)
              simp [List.takeWhile, hold1, List.filter, hw, this]

/-- C6: SyncPostCheckpoint walks the pending-unlinks list from the
head and stops at the first entry stamped with the current
checkpoint_cycle_ctr; every earlier entry has the handler unlink
invoked exactly once (in order), a warning is logged exactly for the
failures with an errno other than ENOENT, and the entry is removed in
every case — in particular the surviving list is independent of the
unlink outcomes, so a failed unlink is never retried at the next
checkpoint.  Stated for a quiescent inter-process queue. -/
theorem syncPostCheckpoint_policy (env : SyncEnv) (st : SyncGState)
    (hq : st.absorbQueue = []) :
    (SyncPostCheckpoint env st).pendingUnlinks
      = st.pendingUnlinks.dropWhile (oldEntry st.checkpoint_cycle_ctr) ∧
    (SyncPostCheckpoint env st).unlinkCalls
      = st.unlinkCalls
        ++ (st.pendingUnlinks.takeWhile (oldEntry st.checkpoint_cycle_ctr)).map
             (·.tag) ∧
    (SyncPostCheckpoint env st).warnings
      = st.warnings
        ++ ((st.pendingUnlinks.takeWhile (oldEntry st.checkpoint_cycle_ctr)).filter
            (unlinkErrWarns env)).map (·.tag) ∧
    (SyncPostCheckpoint env st).pendingOps = st.pendingOps := by
  have h := postCkptLoop_quiescent env st.checkpoint_cycle_ctr st.pendingUnlinks
    (st.pendingUnlinks.length + queueSize st.absorbQueue + 1) UNLINKS_PER_ABSORB
    st (by omega) hq rfl rfl
  exact ⟨h.1, h.2.1, h.2.2.1, h.2.2.2.1⟩

def stC6 : SyncGState :=
  { pendingUnlinks := [⟨wTagA, 0⟩, ⟨wTagB, 0⟩, ⟨wTagC, 0⟩, ⟨wTagD, 1⟩],
    checkpoint_cycle_ctr := 1 }

/-- Witness for C6: three old entries (one clean unlink, one ENOENT
failure, one other failure) and one current-cycle entry.  All three
old entries are unlinked and removed, only the non-ENOENT failure
warns, the current-cycle entry survives. -/
theorem syncPostCheckpoint_policy_witness :
    (SyncPostCheckpoint wEnv stC6).pendingUnlinks = [⟨wTagD, 1⟩] ∧
    (SyncPostCheckpoint wEnv stC6).unlinkCalls = [wTagA, wTagB, wTagC] ∧
    (SyncPostCheckpoint wEnv stC6).warnings = [wTagC] :=
  ⟨(syncPostCheckpoint_policy wEnv stC6 rfl).1,
   (syncPostCheckpoint_policy wEnv stC6 rfl).2.1,
   (syncPostCheckpoint_policy wEnv stC6 rfl).2.2.1⟩

theorem takeWhile_append_all {α : Type} (p : α → Bool) (l1 l2 : List α)
    (h : ∀ x ∈ l1, p x = true) :
    (l1 ++ l2).takeWhile p = l1 ++ l2.takeWhile p := by
  induction l1 with
  | nil => simp
  | cons a rest ih =>
    have ha := h a (List.mem_cons_self a rest)
    simp [List.takeWhile, ha,
      ih (fun x hx => h x (List.mem_cons_of_mem a hx))]

theorem dropWhile_append_all {α : Type} (p : α → Bool) (l1 l2 : List α)
    (h : ∀ x ∈ l1, p x = true) :
    (l1 ++ l2).dropWhile p = l2.dropWhile p := by
  induction l1 with
  | nil => simp
  | cons a rest ih =>
    have ha := h a (List.mem_cons_self a rest)
    simp [List.dropWhile, ha,
      ih (fun x hx => h x (List.mem_cons_of_mem a hx))]

/-- C8: SyncPreCheckpoint advances checkpoint_cycle_ctr by exactly one
(modular) and changes nothing else; an Unlink request registered after
it is appended stamped with the new counter, survives the checkpoint
pass in which it was registered (SyncPostCheckpoint stops at it), and
is unlinked exactly by the SyncPostCheckpoint of the following
checkpoint.  Stated for a quiescent inter-process queue whose prior
unlink entries all carry the pre-hook cycle value. -/
theorem preCheckpoint_and_deferred_unlink (env : SyncEnv) (st : SyncGState)
    (R : FileTag) (hq : st.absorbQueue = [])
    (hall : ∀ e ∈ st.pendingUnlinks, e.cycle_ctr = st.checkpoint_cycle_ctr) :
    SyncPreCheckpoint st
      = { st with checkpoint_cycle_ctr := ctrSucc st.checkpoint_cycle_ctr } ∧
    (RememberSyncRequest env (SyncPreCheckpoint st) R
        .SYNC_UNLINK_REQUEST).pendingUnlinks
      = st.pendingUnlinks ++ [⟨R, ctrSucc st.checkpoint_cycle_ctr⟩] ∧
    (SyncPostCheckpoint env (RememberSyncRequest env (SyncPreCheckpoint st) R
        .SYNC_UNLINK_REQUEST)).pendingUnlinks
      = [⟨R, ctrSucc st.checkpoint_cycle_ctr⟩] ∧
    (SyncPostCheckpoint env (SyncPreCheckpoint (SyncPostCheckpoint env
        (RememberSyncRequest env (SyncPreCheckpoint st) R
          .SYNC_UNLINK_REQUEST)))).pendingUnlinks = [] ∧
    (SyncPostCheckpoint env (SyncPreCheckpoint (SyncPostCheckpoint env
        (RememberSyncRequest env (SyncPreCheckpoint st) R
          .SYNC_UNLINK_REQUEST)))).unlinkCalls
      = (SyncPostCheckpoint env (RememberSyncRequest env (SyncPreCheckpoint st) R
          .SYNC_UNLINK_REQUEST)).unlinkCalls ++ [R] := by
  have hall2 : ∀ e ∈ st.pendingUnlinks,
      oldEntry (ctrSucc st.checkpoint_cycle_ctr) e = true := by
    intro e he
    simp only [oldEntry, Bool.not_eq_true', decide_eq_false_iff_not, hall e he]
    exact fun hx => ctrSucc_ne st.checkpoint_cycle_ctr hx.symm
  have h3 := postCkptLoop_quiescent env (ctrSucc st.checkpoint_cycle_ctr)
    (st.pendingUnlinks ++ [(⟨R, ctrSucc st.checkpoint_cycle_ctr⟩ : PendingUnlinkEntry)])
    ((st.pendingUnlinks
        ++ [(⟨R, ctrSucc st.checkpoint_cycle_ctr⟩ : PendingUnlinkEntry)]).length
      + queueSize st.absorbQueue + 1)
    UNLINKS_PER_ABSORB
    (RememberSyncRequest env (SyncPreCheckpoint st) R .SYNC_UNLINK_REQUEST)
    (by omega) hq rfl rfl
  have hRstay : oldEntry (ctrSucc st.checkpoint_cycle_ctr)
      (⟨R, ctrSucc st.checkpoint_cycle_ctr⟩ : PendingUnlinkEntry) = false := by
    simp [oldEntry]
  have hpu3 : (SyncPostCheckpoint env (RememberSyncRequest env
      (SyncPreCheckpoint st) R .SYNC_UNLINK_REQUEST)).pendingUnlinks
      = [⟨R, ctrSucc st.checkpoint_cycle_ctr⟩] :=
    h3.1.trans (by
      rw [dropWhile_append_all _ _ _ hall2]
      simp [List.dropWhile, hRstay])
  have hck3 : (SyncPostCheckpoint env (RememberSyncRequest env
      (SyncPreCheckpoint st) R .SYNC_UNLINK_REQUEST)).checkpoint_cycle_ctr
      = ctrSucc st.checkpoint_cycle_ctr := h3.2.2.2.2.1
  have hq3 : (SyncPostCheckpoint env (RememberSyncRequest env
      (SyncPreCheckpoint st) R .SYNC_UNLINK_REQUEST)).absorbQueue = [] :=
    h3.2.2.2.2.2
  have hRold : oldEntry (ctrSucc (ctrSucc st.checkpoint_cycle_ctr))
      (⟨R, ctrSucc st.checkpoint_cycle_ctr⟩ : PendingUnlinkEntry) = true := by
    simp only [oldEntry, Bool.not_eq_true', decide_eq_false_iff_not]
    exact fun hx => ctrSucc_ne (ctrSucc st.checkpoint_cycle_ctr) hx.symm
  have h4 := postCkptLoop_quiescent env
    (ctrSucc (ctrSucc st.checkpoint_cycle_ctr))
    [(⟨R, ctrSucc st.checkpoint_cycle_ctr⟩ : PendingUnlinkEntry)]
    ((SyncPreCheckpoint (SyncPostCheckpoint env (RememberSyncRequest env
        (SyncPreCheckpoint st) R .SYNC_UNLINK_REQUEST))).pendingUnlinks.length
      + queueSize (SyncPreCheckpoint (SyncPostCheckpoint env
          (RememberSyncRequest env (SyncPreCheckpoint st) R
            .SYNC_UNLINK_REQUEST))).absorbQueue + 1)
    UNLINKS_PER_ABSORB
    (SyncPreCheckpoint (SyncPostCheckpoint env (RememberSyncRequest env
      (SyncPreCheckpoint st) R .SYNC_UNLINK_REQUEST)))
    (by simp only [List.length_singleton]; omega) hq3 hpu3
    (congrArg ctrSucc hck3)
  refine ⟨rfl, rfl, hpu3, ?_, ?_⟩
  · exact h4.1.trans (by simp [List.dropWhile, hRold])
  · exact h4.2.1.trans (by simp [SyncPreCheckpoint, List.takeWhile, hRold])

def stC8 : SyncGState :=
  { pendingUnlinks := [⟨wTagA, 0⟩], checkpoint_cycle_ctr := 0 }

/-- Witness for C8: an unlink registered after the pre-hook survives
the first post-hook and is gone after the next cycle. -/
theorem preCheckpoint_and_deferred_unlink_witness :
    (∀ e ∈ stC8.pendingUnlinks, e.cycle_ctr = stC8.checkpoint_cycle_ctr) ∧
    (SyncPostCheckpoint wEnv (RememberSyncRequest wEnv (SyncPreCheckpoint stC8)
        wTagB .SYNC_UNLINK_REQUEST)).pendingUnlinks = [⟨wTagB, 1⟩] ∧
    (SyncPostCheckpoint wEnv (SyncPreCheckpoint (SyncPostCheckpoint wEnv
        (RememberSyncRequest wEnv (SyncPreCheckpoint stC8) wTagB
          .SYNC_UNLINK_REQUEST)))).pendingUnlinks = [] :=
  ⟨by decide,
   (preCheckpoint_and_deferred_unlink wEnv stC8 wTagB rfl (by decide)).2.2.1,
   (preCheckpoint_and_deferred_unlink wEnv stC8 wTagB rfl (by decide)).2.2.2.1⟩

/-! Lemmas supporting the flush-loop and retry-loop proofs. -/

theorem opsFind_opsRemove_ne (ops : List PendingFsyncEntry) (t u : FileTag)
    (h : t ≠ u) : opsFind (opsRemove ops u) t = opsFind ops t := by
  induction ops with
  | nil => rfl
  | cons a rest ih =>
    by_cases ha : a.tag = u
    · have hat : ¬(a.tag = t) := fun hx => h (hx.symm.trans ha)
      simp only [opsRemove, if_pos ha, opsFind, if_neg hat]
    · by_cases hat : a.tag = t
      · simp only [opsRemove, if_neg ha, opsFind, if_pos hat]
      · simp only [opsRemove, if_neg ha, opsFind, if_neg hat, ih]

theorem opsFind_eq_none_of_not_mem (ops : List PendingFsyncEntry) (t : FileTag)
    (h : t ∉ ops.map (·.tag)) : opsFind ops t = none := by
  induction ops with
  | nil => rfl
  | cons a rest ih =>
    simp only [List.map_cons, List.mem_cons] at h
    push_neg at h
    have : ¬(a.tag = t) := fun hx => h.1 hx.symm
    simp [opsFind, this, ih h.2]

theorem opsFind_opsRemove_self (ops : List PendingFsyncEntry) (t : FileTag)
    (hnd : (ops.map (·.tag)).Nodup) : opsFind (opsRemove ops t) t = none := by
  induction ops with
  | nil => rfl
  | cons a rest ih =>
    simp only [List.map_cons, List.nodup_cons] at hnd
    by_cases ha : a.tag = t
    · simp only [opsRemove, if_pos ha]
      exact opsFind_eq_none_of_not_mem rest t (ha ▸ hnd.1)
    · simp [opsRemove, ha, opsFind, ih hnd.2]

theorem mem_tags_opsRemove (ops : List PendingFsyncEntry) (t x : FileTag)
    (h : x ∈ (opsRemove ops t).map (·.tag)) : x ∈ ops.map (·.tag) := by
  induction ops with
  | nil => simp [opsRemove] at h
  | cons a rest ih =>
    by_cases ha : a.tag = t
    · simp only [opsRemove, if_pos ha] at h
      exact List.mem_cons_of_mem _ h
    · simp only [opsRemove, if_neg ha, List.map_cons, List.mem_cons] at h ⊢
      exact h.imp id ih

theorem opsRemove_nodup (ops : List PendingFsyncEntry) (t : FileTag)
    (hnd : (ops.map (·.tag)).Nodup) :
    ((opsRemove ops t).map (·.tag)).Nodup := by
  induction ops with
  | nil => simp [opsRemove]
  | cons a rest ih =>
    simp only [List.map_cons, List.nodup_cons] at hnd
    by_cases ha : a.tag = t
    · simp only [opsRemove, if_pos ha]
      exact hnd.2
    · simp only [opsRemove, if_neg ha, List.map_cons, List.nodup_cons]
      exact ⟨fun hx => hnd.1 (mem_tags_opsRemove rest t a.tag hx), ih hnd.2⟩

theorem opsFind_self_of_nodup (ops : List PendingFsyncEntry)
    (hnd : (ops.map (·.tag)).Nodup) :
    ∀ e ∈ ops, opsFind ops e.tag = some e := by
  induction ops with
  | nil => intro e he; simp at he
  | cons a rest ih =>
    simp only [List.map_cons, List.nodup_cons] at hnd
    intro e he
    rcases List.mem_cons.mp he with rfl | he2
    · simp [opsFind]
    · have : ¬(a.tag = e.tag) := by
        intro hx
        exact hnd.1 (hx ▸ List.mem_map_of_mem (·.tag) he2)
      simp [opsFind, this, ih hnd.2 e he2]

/-- Number of handler sync invocations recorded for a tag. -/
def countSubmitted (st : SyncGState) (t : FileTag) : Nat :=
  (st.submitted.filter (fun p => decide (p.1 = t))).length

theorem countTag_append (l : List (FileTag × Nat)) (u : FileTag) (n : Nat)
    (t : FileTag) :
    ((l ++ [(u, n)]).filter (fun p => decide (p.1 = t))).length
      = (l.filter (fun p => decide (p.1 = t))).length
        + (if u = t then 1 else 0) := by
  by_cases h : u = t <;> simp [List.filter_append, List.filter, h]

theorem call_syncfiletag_success_eq (env : SyncEnv) (cfg : SyncConfig)
    (st : SyncGState) (e : InflightSyncEntry) (el : Nat)
    (x : PendingFsyncEntry)
    (hout : env.syncResult e.tag e.retry_count = SyncOutcome.ok el)
    (hF : opsFind st.pendingOps e.tag = some x) :
    call_syncfiletag env cfg st e = Except.ok { st with
      inflightSyncs := (st.inflightSyncs ++ [e]).erase e,
      submitted := st.submitted ++ [(e.tag, e.retry_count)],
      longest := if el > st.longest then el else st.longest,
      total_elapsed := st.total_elapsed + el,
      processed := st.processed + 1,
      pendingOps := opsRemove st.pendingOps e.tag } := by
  simp only [call_syncfiletag, hout, SyncRequestCompleted]
  rw [hF]
  rfl

theorem call_syncfiletag_fail_retry_eq (env : SyncEnv) (cfg : SyncConfig)
    (st : SyncGState) (e : InflightSyncEntry) (err : Nat)
    (hout : env.syncResult e.tag e.retry_count = SyncOutcome.fail err)
    (hfpd : FILE_POSSIBLY_DELETED err = true) (hrc : e.retry_count = 0) :
    call_syncfiletag env cfg st e = Except.ok { st with
      inflightSyncs := (st.inflightSyncs ++ [e]).erase e,
      submitted := st.submitted ++ [(e.tag, e.retry_count)],
      debugRetries := st.debugRetries ++ [e.tag],
      retrySyncs := st.retrySyncs ++ [{ e with retry_count := e.retry_count + 1 }] } := by
  simp only [call_syncfiletag, hout, SyncRequestCompleted]
  rw [if_neg (by decide : ¬(false = true)),
    if_neg (by simp [hfpd, hrc] : ¬(FILE_POSSIBLY_DELETED err = false ∨ 0 < e.retry_count))]

theorem call_syncfiletag_fail_fatal (env : SyncEnv) (cfg : SyncConfig)
    (st : SyncGState) (e : InflightSyncEntry) (err : Nat)
    (hout : env.syncResult e.tag e.retry_count = SyncOutcome.fail err)
    (hcond : FILE_POSSIBLY_DELETED err = false ∨ 0 < e.retry_count) :
    call_syncfiletag env cfg st e
      = Except.error
          (SyncError.dataSyncFailure (data_sync_elevel cfg ERROR) e.tag err) := by
  simp only [call_syncfiletag, hout, SyncRequestCompleted]
  rw [if_neg (by decide : ¬(false = true)), if_pos hcond]

theorem processLoop_cons_none (env : SyncEnv) (cfg : SyncConfig) (u : FileTag)
    (rest : List FileTag) (st : SyncGState)
    (hF : opsFind st.pendingOps u = none) :
    processLoop env cfg (u :: rest) st = processLoop env cfg rest st := by
  simp only [processLoop, hF]

theorem processLoop_cons_new (env : SyncEnv) (cfg : SyncConfig) (u : FileTag)
    (rest : List FileTag) (st : SyncGState) (entry : PendingFsyncEntry)
    (hF : opsFind st.pendingOps u = some entry)
    (h1 : entry.cycle_ctr = st.sync_cycle_ctr) :
    processLoop env cfg (u :: rest) st = processLoop env cfg rest st := by
  simp only [processLoop, hF]
  rw [if_pos h1]

theorem processLoop_cons_assert (env : SyncEnv) (cfg : SyncConfig) (u : FileTag)
    (rest : List FileTag) (st : SyncGState) (entry : PendingFsyncEntry)
    (hF : opsFind st.pendingOps u = some entry)
    (h1 : ¬(entry.cycle_ctr = st.sync_cycle_ctr))
    (h2 : ¬(ctrSucc entry.cycle_ctr = st.sync_cycle_ctr)) :
    processLoop env cfg (u :: rest) st
      = Except.error SyncError.assertCycleCtrFailed := by
  simp only [processLoop, hF]
  rw [if_neg h1, if_neg h2]

theorem quiesAbsorbStep (env : SyncEnv) (st : SyncGState)
    (hq : st.absorbQueue = []) :
    (if st.absorb_counter ≤ 1
     then { AbsorbSyncRequests env st with absorb_counter := FSYNCS_PER_ABSORB }
     else { st with absorb_counter := st.absorb_counter - 1 })
    = { st with absorb_counter :=
          if st.absorb_counter ≤ 1 then FSYNCS_PER_ABSORB
          else st.absorb_counter - 1 } := by
  by_cases h : st.absorb_counter ≤ 1
  · rw [if_pos h, if_pos h, absorb_of_empty_queue env st hq]
  · rw [if_neg h, if_neg h]

theorem processLoop_cons_remove (env : SyncEnv) (cfg : SyncConfig) (u : FileTag)
    (rest : List FileTag) (st : SyncGState) (entry : PendingFsyncEntry)
    (hq : st.absorbQueue = [])
    (hF : opsFind st.pendingOps u = some entry)
    (h1 : ¬(entry.cycle_ctr = st.sync_cycle_ctr))
    (h2 : ctrSucc entry.cycle_ctr = st.sync_cycle_ctr)
    (h3 : cfg.enableFsync = false ∨ entry.canceled = true) :
    processLoop env cfg (u :: rest) st
      = processLoop env cfg rest
          { st with
            pendingOps := opsRemove st.pendingOps u,
            absorb_counter :=
              if st.absorb_counter ≤ 1 then FSYNCS_PER_ABSORB
              else st.absorb_counter - 1 } := by
  simp only [processLoop, hF]
  rw [if_neg h1, if_pos h2, quiesAbsorbStep env st hq]
  simp only [hF, Option.getD_some, Option.isSome_some, if_pos h3, if_true]

theorem processLoop_cons_submit (env : SyncEnv) (cfg : SyncConfig) (u : FileTag)
    (rest : List FileTag) (st : SyncGState) (entry : PendingFsyncEntry)
    (hq : st.absorbQueue = [])
    (hF : opsFind st.pendingOps u = some entry)
    (h1 : ¬(entry.cycle_ctr = st.sync_cycle_ctr))
    (h2 : ctrSucc entry.cycle_ctr = st.sync_cycle_ctr)
    (h3 : cfg.enableFsync = true ∧ entry.canceled = false) :
    processLoop env cfg (u :: rest) st
      = match call_syncfiletag env cfg
            { st with absorb_counter :=
                if st.absorb_counter ≤ 1 then FSYNCS_PER_ABSORB
                else st.absorb_counter - 1 } ⟨u, 0⟩ with
        | .error er => Except.error er
        | .ok st2 => processLoop env cfg rest st2 := by
  simp only [processLoop, hF]
  rw [if_neg h1, if_pos h2, quiesAbsorbStep env st hq]
  simp only [hF, Option.getD_some]
  rw [if_neg (by simp [h3.1, h3.2])]

theorem countSubmitted_append (s2 s1 : SyncGState) (u : FileTag) (n : Nat)
    (t : FileTag) (h : s2.submitted = s1.submitted ++ [(u, n)]) :
    countSubmitted s2 t = countSubmitted s1 t + (if u = t then 1 else 0) := by
  unfold countSubmitted
  rw [h, countTag_append]

/-- The main flush-loop classification, by induction over the visited
tag snapshot: with a quiescent inter-process queue, a duplicate-free
table satisfying the cycle-counter invariant, and first submissions
that complete successfully, the loop returns normally (in particular
the cycle Assert never fires) and treats every visited entry according
to its class: new entries are skipped in place, canceled or
fsync-disabled stale entries are removed with no submission, and every
other stale entry is submitted exactly once. -/
theorem processLoop_main (env : SyncEnv) (cfg : SyncConfig)
    (visit : List FileTag) :
    ∀ st : SyncGState, st.absorbQueue = [] →
    (∀ t ∈ visit, ∀ entry : PendingFsyncEntry,
        opsFind st.pendingOps t = some entry →
        entry.cycle_ctr = st.sync_cycle_ctr ∨
          ctrSucc entry.cycle_ctr = st.sync_cycle_ctr) →
    (∀ t ∈ visit, isOkOutcome (env.syncResult t 0) = true) →
    visit.Nodup →
    (st.pendingOps.map (·.tag)).Nodup →
    ∃ st', processLoop env cfg visit st = Except.ok st' ∧
      st'.sync_cycle_ctr = st.sync_cycle_ctr ∧
      st'.absorbQueue = [] ∧
      (st'.pendingOps.map (·.tag)).Nodup ∧
      (∃ l, st'.submitted = st.submitted ++ l) ∧
      (∀ t, t ∉ visit →
        opsFind st'.pendingOps t = opsFind st.pendingOps t ∧
        countSubmitted st' t = countSubmitted st t) ∧
      (∀ t ∈ visit, ∀ entry : PendingFsyncEntry,
        opsFind st.pendingOps t = some entry →
        (entry.cycle_ctr = st.sync_cycle_ctr →
            opsFind st'.pendingOps t = some entry ∧
            countSubmitted st' t = countSubmitted st t) ∧
        (entry.cycle_ctr ≠ st.sync_cycle_ctr →
          ((cfg.enableFsync = false ∨ entry.canceled = true) →
              opsFind st'.pendingOps t = none ∧
              countSubmitted st' t = countSubmitted st t) ∧
          (cfg.enableFsync = true ∧ entry.canceled = false →
              countSubmitted st' t = countSubmitted st t + 1 ∧
              (t, 0) ∈ st'.submitted ∧
              opsFind st'.pendingOps t = none))) := by
  induction visit with
  | nil =>
    intro st hq hcyc hok hnd hndops
    exact ⟨st, rfl, rfl, hq, hndops, ⟨[], by simp⟩,
      fun t _ => ⟨rfl, rfl⟩, fun t ht => absurd ht (List.not_mem_nil t)⟩
  | cons u rest ih =>
    intro st hq hcyc hok hnd hndops
    have hur : u ∉ rest := (List.nodup_cons.mp hnd).1
    have hndr : rest.Nodup := (List.nodup_cons.mp hnd).2
    have hcycr : ∀ t ∈ rest, ∀ entry : PendingFsyncEntry,
        opsFind st.pendingOps t = some entry →
        entry.cycle_ctr = st.sync_cycle_ctr ∨
          ctrSucc entry.cycle_ctr = st.sync_cycle_ctr :=
      fun t ht => hcyc t (List.mem_cons_of_mem u ht)
    have hokr : ∀ t ∈ rest, isOkOutcome (env.syncResult t 0) = true :=
      fun t ht => hok t (List.mem_cons_of_mem u ht)
    cases hFu : opsFind st.pendingOps u with
    | none =>
      obtain ⟨st', hrun, hctr, hq', hnd', hsub, hframe, hvisit⟩ :=
        ih st hq hcycr hokr hndr hndops
      refine ⟨st',
        (processLoop_cons_none env cfg u rest st hFu).trans hrun,
        hctr, hq', hnd', hsub, ?_, ?_⟩
      · intro t ht
        exact hframe t (fun hx => ht (List.mem_cons_of_mem u hx))
      · intro t ht entry2 hFt
        rcases List.mem_cons.mp ht with rfl | ht2
        · rw [hFu] at hFt; cases hFt
        · exact hvisit t ht2 entry2 hFt
    | some entry =>
      by_cases h1 : entry.cycle_ctr = st.sync_cycle_ctr
      · obtain ⟨st', hrun, hctr, hq', hnd', hsub, hframe, hvisit⟩ :=
          ih st hq hcycr hokr hndr hndops
        refine ⟨st',
          (processLoop_cons_new env cfg u rest st entry hFu h1).trans hrun,
          hctr, hq', hnd', hsub, ?_, ?_⟩
        · intro t ht
          exact hframe t (fun hx => ht (List.mem_cons_of_mem u hx))
        · intro t ht entry2 hFt
          rcases List.mem_cons.mp ht with rfl | ht2
          · rw [hFu] at hFt
            injection hFt with hE
            subst hE
            refine ⟨fun _ => ⟨(hframe t hur).1.trans hFu, (hframe t hur).2⟩,
              fun hne => absurd h1 hne⟩
          · exact hvisit t ht2 entry2 hFt
      · have h2 : ctrSucc entry.cycle_ctr = st.sync_cycle_ctr := by
          rcases hcyc u (List.mem_cons_self u rest) entry hFu with hx | hx
          · exact absurd hx h1
          · exact hx
        by_cases h3 : cfg.enableFsync = false ∨ entry.canceled = true
        · -- canceled or fsync disabled: the entry is removed, no submission
          obtain ⟨stR, hstep, hRsub, hRops, hRctr, hRq⟩ :
              ∃ stR : SyncGState,
                (processLoop env cfg (u :: rest) st
                  = processLoop env cfg rest stR) ∧
                stR.submitted = st.submitted ∧
                stR.pendingOps = opsRemove st.pendingOps u ∧
                stR.sync_cycle_ctr = st.sync_cycle_ctr ∧
                stR.absorbQueue = [] :=
            ⟨_, processLoop_cons_remove env cfg u rest st entry hq hFu h1 h2 h3,
              rfl, rfl, rfl, hq⟩
          have hcycR : ∀ t ∈ rest, ∀ entry2 : PendingFsyncEntry,
              opsFind stR.pendingOps t = some entry2 →
              entry2.cycle_ctr = stR.sync_cycle_ctr ∨
                ctrSucc entry2.cycle_ctr = stR.sync_cycle_ctr := by
            intro t ht entry2 hFt
            have htu : t ≠ u := fun hx => hur (hx ▸ ht)
            rw [hRops, opsFind_opsRemove_ne st.pendingOps t u htu] at hFt
            rw [hRctr]
            exact hcycr t ht entry2 hFt
          have hndR : (stR.pendingOps.map (·.tag)).Nodup := by
            rw [hRops]; exact opsRemove_nodup st.pendingOps u hndops
          obtain ⟨st', hrun, hctr, hq', hnd', hsub, hframe, hvisit⟩ :=
            ih stR hRq hcycR hokr hndr hndR
          have hcntR : ∀ t, countSubmitted stR t = countSubmitted st t := by
            intro t; unfold countSubmitted; rw [hRsub]
          refine ⟨st', hstep.trans hrun, hctr.trans hRctr, hq', hnd', ?_, ?_, ?_⟩
          · obtain ⟨l, hl⟩ := hsub
            exact ⟨l, by rw [hl, hRsub]⟩
          · intro t ht
            have htu : t ≠ u := fun hx => ht (hx ▸ List.mem_cons_self u rest)
            have htr : t ∉ rest := fun hx => ht (List.mem_cons_of_mem u hx)
            refine ⟨(hframe t htr).1.trans ?_, (hframe t htr).2.trans (hcntR t)⟩
            rw [hRops]
            exact opsFind_opsRemove_ne st.pendingOps t u htu
          · intro t ht entry2 hFt
            rcases List.mem_cons.mp ht with rfl | ht2
            · rw [hFu] at hFt
              injection hFt with hE
              subst hE
              refine ⟨fun hnew => absurd hnew h1, fun _ => ⟨fun _ => ?_, fun hx => ?_⟩⟩
              · refine ⟨(hframe t hur).1.trans ?_, (hframe t hur).2.trans (hcntR t)⟩
                rw [hRops]
                exact opsFind_opsRemove_self st.pendingOps t hndops
              · rcases h3 with ha | hb
                · rw [hx.1] at ha; cases ha
                · rw [hx.2] at hb; cases hb
            · have htu : t ≠ u := fun hx => hur (hx ▸ ht2)
              have hFt2 : opsFind stR.pendingOps t = some entry2 := by
                rw [hRops, opsFind_opsRemove_ne st.pendingOps t u htu]
                exact hFt
              have hv := hvisit t ht2 entry2 hFt2
              rw [hRctr, hcntR t] at hv
              exact hv
        · -- live stale entry: submitted once, then removed by its completion
          have h3p : cfg.enableFsync = true ∧ entry.canceled = false := by
            push_neg at h3
            exact ⟨by simpa using h3.1, by simpa using h3.2⟩
          cases hres : env.syncResult u 0 with
          | fail err =>
            exfalso
            have := hok u (List.mem_cons_self u rest)
            rw [hres] at this
            simp [isOkOutcome] at this
          | ok el =>
            obtain ⟨st2, hcall, h2sub, h2ops, h2ctr, h2q⟩ :
                ∃ st2 : SyncGState,
                  (call_syncfiletag env cfg
                    { st with absorb_counter :=
                        if st.absorb_counter ≤ 1 then FSYNCS_PER_ABSORB
                        else st.absorb_counter - 1 } ⟨u, 0⟩
                    = Except.ok st2) ∧
                  st2.submitted = st.submitted ++ [(u, 0)] ∧
                  st2.pendingOps = opsRemove st.pendingOps u ∧
                  st2.sync_cycle_ctr = st.sync_cycle_ctr ∧
                  st2.absorbQueue = [] :=
              ⟨_,
                call_syncfiletag_success_eq env cfg
                  { st with absorb_counter :=
                      if st.absorb_counter ≤ 1 then FSYNCS_PER_ABSORB
                      else st.absorb_counter - 1 } ⟨u, 0⟩ el entry hres hFu,
                rfl, rfl, rfl, hq⟩
            have hstep := processLoop_cons_submit env cfg u rest st entry hq
              hFu h1 h2 h3p
            have hstep2 : processLoop env cfg (u :: rest) st
                = processLoop env cfg rest st2 := by
              rw [hstep, hcall]
            have hcycR : ∀ t ∈ rest, ∀ entry2 : PendingFsyncEntry,
                opsFind st2.pendingOps t = some entry2 →
                entry2.cycle_ctr = st2.sync_cycle_ctr ∨
                  ctrSucc entry2.cycle_ctr = st2.sync_cycle_ctr := by
              intro t ht entry2 hFt
              have htu : t ≠ u := fun hx => hur (hx ▸ ht)
              rw [h2ops, opsFind_opsRemove_ne st.pendingOps t u htu] at hFt
              rw [h2ctr]
              exact hcycr t ht entry2 hFt
            have hndR : (st2.pendingOps.map (·.tag)).Nodup := by
              rw [h2ops]; exact opsRemove_nodup st.pendingOps u hndops
            obtain ⟨st', hrun, hctr, hq', hnd', hsub, hframe, hvisit⟩ :=
              ih st2 h2q hcycR hokr hndr hndR
            have hcnt2 : ∀ t, t ≠ u → countSubmitted st2 t = countSubmitted st t := by
              intro t htu
              rw [countSubmitted_append st2 st u 0 t h2sub,
                if_neg (fun hx => htu hx.symm)]
              omega
            refine ⟨st', hstep2.trans hrun, hctr.trans h2ctr, hq', hnd', ?_, ?_, ?_⟩
            · obtain ⟨l, hl⟩ := hsub
              refine ⟨(u, 0) :: l, ?_⟩
              rw [hl, h2sub, List.append_assoc]
              rfl
            · intro t ht
              have htu : t ≠ u := fun hx => ht (hx ▸ List.mem_cons_self u rest)
              have htr : t ∉ rest := fun hx => ht (List.mem_cons_of_mem u hx)
              refine ⟨(hframe t htr).1.trans ?_,
                (hframe t htr).2.trans (hcnt2 t htu)⟩
              rw [h2ops]
              exact opsFind_opsRemove_ne st.pendingOps t u htu
            · intro t ht entry2 hFt
              rcases List.mem_cons.mp ht with rfl | ht2
              · rw [hFu] at hFt
                injection hFt with hE
                subst hE
                refine ⟨fun hnew => absurd hnew h1,
                  fun _ => ⟨fun hx => ?_, fun _ => ?_⟩⟩
                · rcases hx with ha | hb
                  · rw [h3p.1] at ha; cases ha
                  · rw [h3p.2] at hb; cases hb
                · refine ⟨?_, ?_, ?_⟩
                  · rw [(hframe t hur).2, countSubmitted_append st2 st t 0 t h2sub]
                    simp
                  · obtain ⟨l, hl⟩ := hsub
                    rw [hl, h2sub]
                    simp
                  · refine (hframe t hur).1.trans ?_
                    rw [h2ops]
                    exact opsFind_opsRemove_self st.pendingOps t hndops
              · have htu : t ≠ u := fun hx => hur (hx ▸ ht2)
                have hFt2 : opsFind st2.pendingOps t = some entry2 := by
                  rw [h2ops, opsFind_opsRemove_ne st.pendingOps t u htu]
                  exact hFt
                have hv := hvisit t ht2 entry2 hFt2
                rw [h2ctr, hcnt2 t htu] at hv
                exact hv

theorem opsFind_mem (ops : List PendingFsyncEntry) (t : FileTag)
    (e : PendingFsyncEntry) (h : opsFind ops t = some e) : e ∈ ops := by
  induction ops with
  | nil => simp [opsFind] at h
  | cons a rest ih =>
    by_cases ha : a.tag = t
    · simp only [opsFind, if_pos ha, Option.some.injEq] at h
      subst h
      exact List.mem_cons_self a rest
    · simp only [opsFind, if_neg ha] at h
      exact List.mem_cons_of_mem a (ih h)

/-- C3: in the main flush loop of ProcessSyncRequests, every visited
entry stamped with the already-incremented sync_cycle_ctr is skipped
and left in place with no submission; every other visited entry
satisfies the modular predecessor Assert (and the loop returns
normally, so the assertion never fires); a stale entry that is
canceled, or any stale entry when fsync is globally disabled, is
removed from the table with no sync submission; and every other stale
entry is submitted exactly once, through an InflightSyncEntry carrying
its tag and retry count zero.  Stated for a quiescent inter-process
queue, a duplicate-free table and first submissions that complete. -/
theorem processLoop_classification (env : SyncEnv) (cfg : SyncConfig)
    (st : SyncGState)
    (hq : st.absorbQueue = [])
    (hnd : (st.pendingOps.map (·.tag)).Nodup)
    (hcyc : ∀ e ∈ st.pendingOps,
        e.cycle_ctr = st.sync_cycle_ctr ∨
          ctrSucc e.cycle_ctr = st.sync_cycle_ctr)
    (hok : ∀ t : FileTag, isOkOutcome (env.syncResult t 0) = true) :
    ∃ st', processLoop env cfg (st.pendingOps.map (·.tag)) st = Except.ok st' ∧
      ∀ e ∈ st.pendingOps,
        (e.cycle_ctr = st.sync_cycle_ctr →
            opsFind st'.pendingOps e.tag = some e ∧
            countSubmitted st' e.tag = countSubmitted st e.tag) ∧
        (e.cycle_ctr ≠ st.sync_cycle_ctr →
          ctrSucc e.cycle_ctr = st.sync_cycle_ctr ∧
          ((cfg.enableFsync = false ∨ e.canceled = true) →
              opsFind st'.pendingOps e.tag = none ∧
              countSubmitted st' e.tag = countSubmitted st e.tag) ∧
          (cfg.enableFsync = true ∧ e.canceled = false →
              countSubmitted st' e.tag = countSubmitted st e.tag + 1 ∧
              (e.tag, 0) ∈ st'.submitted)) := by
  obtain ⟨st', hrun, _, _, _, _, _, hvisit⟩ :=
    processLoop_main env cfg (st.pendingOps.map (·.tag)) st hq
      (fun t _ entry hFt => hcyc entry (opsFind_mem st.pendingOps t entry hFt))
      (fun t _ => hok t) hnd hnd
  refine ⟨st', hrun, ?_⟩
  intro e he
  have hFe : opsFind st.pendingOps e.tag = some e :=
    opsFind_self_of_nodup st.pendingOps hnd e he
  have hv := hvisit e.tag (List.mem_map_of_mem (·.tag) he) e hFe
  refine ⟨hv.1, fun hne => ?_⟩
  have h2 : ctrSucc e.cycle_ctr = st.sync_cycle_ctr := by
    rcases hcyc e he with hx | hx
    · exact absurd hx hne
    · exact hx
  refine ⟨h2, (hv.2 hne).1, fun hx => ?_⟩
  obtain ⟨hc1, hc2, _⟩ := (hv.2 hne).2 hx
  exact ⟨hc1, hc2⟩

def stW3 : SyncGState :=
  { pendingOps := [⟨wTagA, 5, false⟩, ⟨wTagB, 4, false⟩, ⟨wTagC, 4, true⟩],
    sync_cycle_ctr := 5 }

/-- Witness for C3: a new entry, a live stale entry and a canceled
stale entry. -/
theorem processLoop_classification_witness :
    ∃ st', processLoop wEnv wCfg (stW3.pendingOps.map (·.tag)) stW3
        = Except.ok st' ∧
      ∀ e ∈ stW3.pendingOps,
        (e.cycle_ctr = stW3.sync_cycle_ctr →
            opsFind st'.pendingOps e.tag = some e ∧
            countSubmitted st' e.tag = countSubmitted stW3 e.tag) ∧
        (e.cycle_ctr ≠ stW3.sync_cycle_ctr →
          ctrSucc e.cycle_ctr = stW3.sync_cycle_ctr ∧
          ((wCfg.enableFsync = false ∨ e.canceled = true) →
              opsFind st'.pendingOps e.tag = none ∧
              countSubmitted st' e.tag = countSubmitted stW3 e.tag) ∧
          (wCfg.enableFsync = true ∧ e.canceled = false →
              countSubmitted st' e.tag = countSubmitted stW3 e.tag + 1 ∧
              (e.tag, 0) ∈ st'.submitted)) :=
  processLoop_classification wEnv wCfg stW3 rfl (by decide) (by decide)
    (fun _ => rfl)

theorem retryLoop_nil (env : SyncEnv) (cfg : SyncConfig) (fuel : Nat)
    (st : SyncGState) (hrs : st.retrySyncs = []) :
    retryLoop env cfg (fuel + 1) st = Except.ok st := by
  simp only [retryLoop, hrs]

theorem retryLoop_cons_canceled (env : SyncEnv) (cfg : SyncConfig) (fuel : Nat)
    (st : SyncGState) (e : InflightSyncEntry) (rest : List InflightSyncEntry)
    (entry : PendingFsyncEntry)
    (hrs : st.retrySyncs = e :: rest)
    (hF : opsFind st.pendingOps e.tag = some entry)
    (hc : entry.canceled = true) :
    retryLoop env cfg (fuel + 1) st
      = retryLoop env cfg fuel
          { st with
            retrySyncs := rest,
            pendingOps := opsRemove st.pendingOps e.tag } := by
  simp only [retryLoop, hrs, hF]
  rw [if_pos hc]

theorem retryLoop_cons_live (env : SyncEnv) (cfg : SyncConfig) (fuel : Nat)
    (st : SyncGState) (e : InflightSyncEntry) (rest : List InflightSyncEntry)
    (entry : PendingFsyncEntry)
    (hrs : st.retrySyncs = e :: rest)
    (hF : opsFind st.pendingOps e.tag = some entry)
    (hc : ¬(entry.canceled = true))
    (hrc : e.retry_count ≤ 5) :
    retryLoop env cfg (fuel + 1) st
      = match call_syncfiletag env cfg { st with retrySyncs := rest } e with
        | .error er => Except.error er
        | .ok st2 => retryLoop env cfg fuel st2 := by
  simp only [retryLoop, hrs, hF]
  rw [if_neg hc, if_pos hrc]

/-- The retry drain loop, characterized by induction over the retry
queue: with a quiescent queue, distinct tags all present in the table,
retry counts within the Assert bound, and resubmissions of
non-canceled entries completing successfully, the loop drains the
queue; an entry found canceled is removed from the table and not
resubmitted, every other entry is resubmitted exactly once with its
retry count. -/
theorem retryLoop_main (env : SyncEnv) (cfg : SyncConfig)
    (rs : List InflightSyncEntry) :
    ∀ (fuel : Nat) (st : SyncGState),
    rs.length < fuel →
    st.retrySyncs = rs →
    st.absorbQueue = [] →
    (rs.map (·.tag)).Nodup →
    (st.pendingOps.map (·.tag)).Nodup →
    (∀ f ∈ rs, (opsFind st.pendingOps f.tag).isSome = true) →
    (∀ f ∈ rs, ∀ entry : PendingFsyncEntry,
        opsFind st.pendingOps f.tag = some entry → entry.canceled = false →
        isOkOutcome (env.syncResult f.tag f.retry_count) = true) →
    (∀ f ∈ rs, f.retry_count ≤ 5) →
    ∃ st', retryLoop env cfg fuel st = Except.ok st' ∧
      st'.retrySyncs = [] ∧
      st'.absorbQueue = [] ∧
      (∃ l, st'.submitted = st.submitted ++ l) ∧
      (∀ t, t ∉ rs.map (·.tag) →
        opsFind st'.pendingOps t = opsFind st.pendingOps t ∧
        countSubmitted st' t = countSubmitted st t) ∧
      (∀ f ∈ rs, ∀ entry : PendingFsyncEntry,
        opsFind st.pendingOps f.tag = some entry →
        (entry.canceled = true →
            opsFind st'.pendingOps f.tag = none ∧
            countSubmitted st' f.tag = countSubmitted st f.tag) ∧
        (entry.canceled = false →
            countSubmitted st' f.tag = countSubmitted st f.tag + 1 ∧
            (f.tag, f.retry_count) ∈ st'.submitted ∧
            opsFind st'.pendingOps f.tag = none)) := by
  induction rs with
  | nil =>
    intro fuel st hfuel hrs hq hnd hndops hfind hout hrc
    cases fuel with
    | zero => omega
    | succ f =>
      exact ⟨st, retryLoop_nil env cfg f st hrs, hrs, hq, ⟨[], by simp⟩,
        fun t _ => ⟨rfl, rfl⟩, fun f hf => absurd hf (List.not_mem_nil f)⟩
  | cons e rest ih =>
    intro fuel st hfuel hrs hq hnd hndops hfind hout hrc
    cases fuel with
    | zero => simp at hfuel
    | succ f =>
      have hfuel1 : rest.length < f := by
        simp only [List.length_cons] at hfuel; omega
      have her : e.tag ∉ rest.map (·.tag) :=
        (List.nodup_cons.mp hnd).1
    -- the head entry is present in the table
      have hfe := hfind e (List.mem_cons_self e rest)
      cases hFe : opsFind st.pendingOps e.tag with
      | none => rw [hFe] at hfe; simp at hfe
      | some entry =>
        have hndr : (rest.map (·.tag)).Nodup := (List.nodup_cons.mp hnd).2
        by_cases hc : entry.canceled = true
        · -- canceled after the absorb: drop from the table, no resubmission
          obtain ⟨stR, hstep, hRsub, hRops, hRrs, hRq⟩ :
              ∃ stR : SyncGState,
                (retryLoop env cfg (f + 1) st = retryLoop env cfg f stR) ∧
                stR.submitted = st.submitted ∧
                stR.pendingOps = opsRemove st.pendingOps e.tag ∧
                stR.retrySyncs = rest ∧
                stR.absorbQueue = [] :=
            ⟨_, retryLoop_cons_canceled env cfg f st e rest entry hrs hFe hc,
              rfl, rfl, rfl, hq⟩
          have hfindR : ∀ g ∈ rest, (opsFind stR.pendingOps g.tag).isSome = true := by
            intro g hg
            have hgu : g.tag ≠ e.tag :=
              fun hx => her (hx ▸ List.mem_map_of_mem (·.tag) hg)
            rw [hRops, opsFind_opsRemove_ne st.pendingOps g.tag e.tag hgu]
            exact hfind g (List.mem_cons_of_mem e hg)
          have houtR : ∀ g ∈ rest, ∀ entry2 : PendingFsyncEntry,
              opsFind stR.pendingOps g.tag = some entry2 →
              entry2.canceled = false →
              isOkOutcome (env.syncResult g.tag g.retry_count) = true := by
            intro g hg entry2 hF2 hc2
            have hgu : g.tag ≠ e.tag :=
              fun hx => her (hx ▸ List.mem_map_of_mem (·.tag) hg)
            rw [hRops, opsFind_opsRemove_ne st.pendingOps g.tag e.tag hgu] at hF2
            exact hout g (List.mem_cons_of_mem e hg) entry2 hF2 hc2
          have hndR : (stR.pendingOps.map (·.tag)).Nodup := by
            rw [hRops]; exact opsRemove_nodup st.pendingOps e.tag hndops
          obtain ⟨st', hrun, hrs', hq', hsub, hframe, hvisit⟩ :=
            ih f stR hfuel1 hRrs hRq hndr hndR hfindR houtR
              (fun g hg => hrc g (List.mem_cons_of_mem e hg))
          have hcntR : ∀ t, countSubmitted stR t = countSubmitted st t := by
            intro t; unfold countSubmitted; rw [hRsub]
          refine ⟨st', hstep.trans hrun, hrs', hq', ?_, ?_, ?_⟩
          · obtain ⟨l, hl⟩ := hsub
            exact ⟨l, by rw [hl, hRsub]⟩
          · intro t ht
            have htu : t ≠ e.tag := by
              intro hx; exact ht (by simp [hx])
            have htr : t ∉ rest.map (·.tag) :=
              fun hx => ht (List.mem_cons_of_mem e.tag hx)
            refine ⟨(hframe t htr).1.trans ?_, (hframe t htr).2.trans (hcntR t)⟩
            rw [hRops]
            exact opsFind_opsRemove_ne st.pendingOps t e.tag htu
          · intro g hg entry2 hF2
            rcases List.mem_cons.mp hg with rfl | hg2
            · rw [hFe] at hF2
              injection hF2 with hE
              subst hE
              refine ⟨fun _ => ?_, fun hlive => ?_⟩
              · refine ⟨(hframe g.tag her).1.trans ?_,
                  (hframe g.tag her).2.trans (hcntR g.tag)⟩
                rw [hRops]
                exact opsFind_opsRemove_self st.pendingOps g.tag hndops
              · rw [hlive] at hc; cases hc
            · have hgu : g.tag ≠ e.tag :=
                fun hx => her (hx ▸ List.mem_map_of_mem (·.tag) hg2)
              have hF2R : opsFind stR.pendingOps g.tag = some entry2 := by
                rw [hRops, opsFind_opsRemove_ne st.pendingOps g.tag e.tag hgu]
                exact hF2
              have hv := hvisit g hg2 entry2 hF2R
              rw [hcntR g.tag] at hv
              exact hv
        · -- still live: resubmit once; the completion removes the entry
          have hc' : entry.canceled = false := by
            rw [← Bool.not_eq_true]; exact hc
          have hokE := hout e (List.mem_cons_self e rest) entry hFe hc'
          cases hres : env.syncResult e.tag e.retry_count with
          | fail err => rw [hres] at hokE; simp [isOkOutcome] at hokE
          | ok el =>
            obtain ⟨st2, hcall, h2sub, h2ops, h2rs, h2q⟩ :
                ∃ st2 : SyncGState,
                  (call_syncfiletag env cfg { st with retrySyncs := rest } e
                    = Except.ok st2) ∧
                  st2.submitted = st.submitted ++ [(e.tag, e.retry_count)] ∧
                  st2.pendingOps = opsRemove st.pendingOps e.tag ∧
                  st2.retrySyncs = rest ∧
                  st2.absorbQueue = [] :=
              ⟨_, call_syncfiletag_success_eq env cfg
                  { st with retrySyncs := rest } e el entry hres hFe,
                rfl, rfl, rfl, hq⟩
            have hstep : retryLoop env cfg (f + 1) st
                = retryLoop env cfg f st2 := by
              rw [retryLoop_cons_live env cfg f st e rest entry hrs hFe hc
                (hrc e (List.mem_cons_self e rest)), hcall]
            have hfindR : ∀ g ∈ rest, (opsFind st2.pendingOps g.tag).isSome = true := by
              intro g hg
              have hgu : g.tag ≠ e.tag :=
                fun hx => her (hx ▸ List.mem_map_of_mem (·.tag) hg)
              rw [h2ops, opsFind_opsRemove_ne st.pendingOps g.tag e.tag hgu]
              exact hfind g (List.mem_cons_of_mem e hg)
            have houtR : ∀ g ∈ rest, ∀ entry2 : PendingFsyncEntry,
                opsFind st2.pendingOps g.tag = some entry2 →
                entry2.canceled = false →
                isOkOutcome (env.syncResult g.tag g.retry_count) = true := by
              intro g hg entry2 hF2 hc2
              have hgu : g.tag ≠ e.tag :=
                fun hx => her (hx ▸ List.mem_map_of_mem (·.tag) hg)
              rw [h2ops, opsFind_opsRemove_ne st.pendingOps g.tag e.tag hgu] at hF2
              exact hout g (List.mem_cons_of_mem e hg) entry2 hF2 hc2
            have hndR : (st2.pendingOps.map (·.tag)).Nodup := by
              rw [h2ops]; exact opsRemove_nodup st.pendingOps e.tag hndops
            obtain ⟨st', hrun, hrs', hq', hsub, hframe, hvisit⟩ :=
              ih f st2 hfuel1 h2rs h2q hndr hndR hfindR houtR
                (fun g hg => hrc g (List.mem_cons_of_mem e hg))
            have hcnt2 : ∀ t, t ≠ e.tag →
                countSubmitted st2 t = countSubmitted st t := by
              intro t htu
              rw [countSubmitted_append st2 st e.tag e.retry_count t h2sub,
                if_neg (fun hx => htu hx.symm)]
              omega
            refine ⟨st', hstep.trans hrun, hrs', hq', ?_, ?_, ?_⟩
            · obtain ⟨l, hl⟩ := hsub
              refine ⟨(e.tag, e.retry_count) :: l, ?_⟩
              rw [hl, h2sub, List.append_assoc]
              rfl
            · intro t ht
              have htu : t ≠ e.tag := by
                intro hx; exact ht (by simp [hx])
              have htr : t ∉ rest.map (·.tag) :=
                fun hx => ht (List.mem_cons_of_mem e.tag hx)
              refine ⟨(hframe t htr).1.trans ?_,
                (hframe t htr).2.trans (hcnt2 t htu)⟩
              rw [h2ops]
              exact opsFind_opsRemove_ne st.pendingOps t e.tag htu
            · intro g hg entry2 hF2
              rcases List.mem_cons.mp hg with rfl | hg2
              · rw [hFe] at hF2
                injection hF2 with hE
                subst hE
                refine ⟨fun hcanc => ?_, fun _ => ?_⟩
                · rw [hcanc] at hc'; cases hc'
                · refine ⟨?_, ?_, ?_⟩
                  · rw [(hframe g.tag her).2,
                      countSubmitted_append st2 st g.tag g.retry_count g.tag h2sub]
                    simp
                  · obtain ⟨l, hl⟩ := hsub
                    rw [hl, h2sub]
                    simp
                  · refine (hframe g.tag her).1.trans ?_
                    rw [h2ops]
                    exact opsFind_opsRemove_self st.pendingOps g.tag hndops
              · have hgu : g.tag ≠ e.tag :=
                  fun hx => her (hx ▸ List.mem_map_of_mem (·.tag) hg2)
                have hF2R : opsFind st2.pendingOps g.tag = some entry2 := by
                  rw [h2ops, opsFind_opsRemove_ne st.pendingOps g.tag e.tag hgu]
                  exact hF2
                have hv := hvisit g hg2 entry2 hF2R
                rw [hcnt2 g.tag hgu] at hv
                exact hv

/-- C5: the retry bank.  A pass of RetrySyncRequests with an empty
retry queue does nothing (in particular it does not absorb); a pass
with a non-empty queue first absorbs one batch of incoming requests
and then, for every queued entry, re-checks the owning pendingOps
entry after that absorb: if it is canceled the entry is removed from
the table and the handler sync is not invoked again for it, otherwise
the entry is resubmitted exactly once with its retry count.  Stated
for distinct tags present in the post-absorb table, retry counts
within the Assert bound, and successful resubmissions. -/
theorem retrySyncRequests_policy (env : SyncEnv) (cfg : SyncConfig)
    (st : SyncGState) (batch : List SyncRequest) :
    (st.retrySyncs = [] → RetrySyncRequests env cfg st = Except.ok st) ∧
    (st.absorbQueue = [batch] →
     st.retrySyncs ≠ [] →
     (st.retrySyncs.map (·.tag)).Nodup →
     ((AbsorbSyncRequests env st).pendingOps.map (·.tag)).Nodup →
     (∀ f ∈ st.retrySyncs,
        (opsFind (AbsorbSyncRequests env st).pendingOps f.tag).isSome = true) →
     (∀ f ∈ st.retrySyncs, ∀ entry : PendingFsyncEntry,
        opsFind (AbsorbSyncRequests env st).pendingOps f.tag = some entry →
        entry.canceled = false →
        isOkOutcome (env.syncResult f.tag f.retry_count) = true) →
     (∀ f ∈ st.retrySyncs, f.retry_count ≤ 5) →
     ∃ st', RetrySyncRequests env cfg st = Except.ok st' ∧
       st'.absorbQueue = [] ∧
       st'.retrySyncs = [] ∧
       ∀ f ∈ st.retrySyncs, ∀ entry : PendingFsyncEntry,
         opsFind (AbsorbSyncRequests env st).pendingOps f.tag = some entry →
         (entry.canceled = true →
             opsFind st'.pendingOps f.tag = none ∧
             countSubmitted st' f.tag = countSubmitted st f.tag) ∧
         (entry.canceled = false →
             countSubmitted st' f.tag = countSubmitted st f.tag + 1 ∧
             (f.tag, f.retry_count) ∈ st'.submitted ∧
             opsFind st'.pendingOps f.tag = none)) := by
  constructor
  · intro h
    unfold RetrySyncRequests
    rw [if_pos h]
  · intro hqb hne hnd hndA hfind hout hrc
    have hqA : (AbsorbSyncRequests env st).absorbQueue = [] := by
      unfold AbsorbSyncRequests
      rw [hqb]
      exact (foldl_remember_core_fields env batch
        { st with absorbQueue := [] }).2.2.2.1
    have hrsA : ({ AbsorbSyncRequests env st with
        absorb_counter := FSYNCS_PER_ABSORB } : SyncGState).retrySyncs
        = st.retrySyncs := (absorb_core_fields env st).2.2.2.2.1
    have hsubA : ({ AbsorbSyncRequests env st with
        absorb_counter := FSYNCS_PER_ABSORB } : SyncGState).submitted
        = st.submitted := (absorb_core_fields env st).2.2.2.1
    have hcntA : ∀ t, countSubmitted { AbsorbSyncRequests env st with
        absorb_counter := FSYNCS_PER_ABSORB } t = countSubmitted st t := by
      intro t; unfold countSubmitted; rw [hsubA]
    have hfuel : st.retrySyncs.length
        < 2 * ({ AbsorbSyncRequests env st with
            absorb_counter := FSYNCS_PER_ABSORB } : SyncGState).retrySyncs.length
          + 1 := by
      rw [hrsA]; omega
    obtain ⟨st', hrun, hrs', hq', _, _, hvisit⟩ :=
      retryLoop_main env cfg st.retrySyncs
        (2 * ({ AbsorbSyncRequests env st with
            absorb_counter := FSYNCS_PER_ABSORB } : SyncGState).retrySyncs.length
          + 1)
        { AbsorbSyncRequests env st with absorb_counter := FSYNCS_PER_ABSORB }
        hfuel hrsA hqA hnd hndA hfind hout hrc
    refine ⟨st', ?_, hq', hrs', ?_⟩
    · unfold RetrySyncRequests
      rw [if_neg hne]
      exact hrun
    · intro f hf entry hF
      have hv := hvisit f hf entry hF
      rw [hcntA f.tag] at hv
      exact hv

def batchS4 : List SyncRequest := [⟨wTagA, .SYNC_FILTER_REQUEST⟩]

def stS4 : SyncGState :=
  { pendingOps := [⟨wTagA, 4, false⟩],
    retrySyncs := [⟨wTagA, 1⟩],
    absorbQueue := [batchS4] }

/-- Witness for C5, scenario S4: a retried entry whose tag is canceled
by a ForgetMatching delivered during the retry-phase absorb is removed
with no second sync invocation. -/
theorem retrySyncRequests_policy_witness :
    ∃ st', RetrySyncRequests wEnv wCfg stS4 = Except.ok st' ∧
      st'.absorbQueue = [] ∧
      st'.retrySyncs = [] ∧
      ∀ f ∈ stS4.retrySyncs, ∀ entry : PendingFsyncEntry,
        opsFind (AbsorbSyncRequests wEnv stS4).pendingOps f.tag = some entry →
        (entry.canceled = true →
            opsFind st'.pendingOps f.tag = none ∧
            countSubmitted st' f.tag = countSubmitted stS4 f.tag) ∧
        (entry.canceled = false →
            countSubmitted st' f.tag = countSubmitted stS4 f.tag + 1 ∧
            (f.tag, f.retry_count) ∈ st'.submitted ∧
            opsFind st'.pendingOps f.tag = none) :=
  (retrySyncRequests_policy wEnv wCfg stS4 batchS4).2 rfl (by decide)
    (by decide) (by decide) (by decide) (fun f _ entry _ _ => rfl) (by decide)
